import Mathlib

/-!
Verification of the DX7 FM-synthesis engine core (C sources under `src/`).

This file gives a shallow embedding of the parts of the program the claims
talk about, and proves or refutes each claim:

* the DX7 voice-patch SysEx codec (`dx7_sysex.c`),
* the per-operator envelope generator (`envelope.c`),
* the oscillator / algorithm-router synthesis kernel
  (`oscillators.c`, `algorithms.c`),
* the MIDI byte parser, dispatcher and the polyphonic voice manager
  (`midi_input.c`).

Conventions of the embedding:

* C `uint8_t` bytes are `ℕ` (with explicit `% 256` where C truncates an
  `int` into a byte); C `int` fields are `ℤ`.
* C `double` arithmetic that stays inside `+ - * /` (the envelope
  generator, the codec's frequency ratio) is embedded as exact `ℚ`;
  the oscillator/algorithm code, which uses `sin`, `exp` and `pow`,
  is embedded over `ℝ`.
* Bitwise ops on in-range operands are written arithmetically:
  `x & 0x03` is `x % 4`, `x >> 2` is `x / 4`, `x << 1` is `x * 2`,
  and `|` of disjoint bit ranges is `+`.
* C functions that fill an out-parameter and return `bool` become
  functions returning `Bool × _` (failure leaves the out-parameter as
  it was) or `Option _`.
-/

namespace Dx7

/-! ## Data model (`dx7.h`) -/

/-- `dx7_operator_t`: one operator of a patch.  Integer fields are C
`int`s; `freq_ratio` is a C `double` embedded as `ℚ`. -/
structure DxOperator where
  freq_ratio : ℚ
  detune : ℤ
  env_rates : Fin 4 → ℤ
  env_levels : Fin 4 → ℤ
  output_level : ℤ
  key_vel_sens : ℤ
  key_level_scale_break_point : ℤ
  key_level_scale_left_depth : ℤ
  key_level_scale_right_depth : ℤ
  key_level_scale_left_curve : ℤ
  key_level_scale_right_curve : ℤ
  key_rate_scaling : ℤ
  osc_sync : ℤ
  deriving DecidableEq

/-- `dx7_patch_t`.  The `name` C string is embedded as the list of its
bytes before the NUL terminator. -/
structure Patch where
  name : List ℕ
  operators : Fin 6 → DxOperator
  algorithm : ℤ
  feedback : ℤ
  lfo_speed : ℤ
  lfo_delay : ℤ
  lfo_pmd : ℤ
  lfo_amd : ℤ
  lfo_sync : ℤ
  lfo_wave : ℤ
  lfo_pitch_mod_sens : ℤ
  pitch_env_rates : Fin 4 → ℤ
  pitch_env_levels : Fin 4 → ℤ
  transpose : ℤ
  poly_mono : ℤ
  pitch_bend_range : ℤ
  portamento_mode : ℤ
  portamento_gliss : ℤ
  portamento_time : ℤ
  deriving DecidableEq

/-- `dx7_sysex_voice_t`: the 163-byte voice dump.  `voice_data` is the
155-byte payload, as a function (only indices `< 155` are meaningful). -/
structure Sysex where
  start_sysex : ℕ
  manufacturer : ℕ
  sub_status : ℕ
  format : ℕ
  byte_count_msb : ℕ
  byte_count_lsb : ℕ
  voice_data : ℕ → ℕ
  checksum : ℕ
  end_sysex : ℕ

/-- C cast of an `int` to `uint8_t` (wraps modulo 256). -/
def byteOfInt (x : ℤ) : ℕ := (x % 256).toNat

/-! ## Codec (`dx7_sysex.c`) -/

/-- `calculate_dx7_checksum`: two's-complement-on-low-7-bits of the sum
of the first `length` bytes. -/
def calculate_dx7_checksum (data : ℕ → ℕ) (length : ℕ) : ℕ :=
  (128 - ((List.range length).foldl (fun s i => s + data i) 0) % 128) % 128

/-- `freq_ratio_to_dx7_format`: frequency ratio to (coarse, fine).
Ratios below 1.0 encode as coarse 0, fine 0; otherwise coarse is the
truncated integer part (clamped to 31) and fine the fractional part
scaled to 0–99 (truncated). -/
def freq_ratio_to_dx7_format (ratio : ℚ) : ℕ × ℕ :=
  if ratio < 1 then
    (0, 0)
  else
    let coarse_int : ℤ := ⌊ratio⌋
    let coarse_int : ℤ := if coarse_int > 31 then 31 else coarse_int
    let fractional : ℚ := ratio - coarse_int
    let fine : ℕ := ((⌊fractional * 99⌋ % 256).toNat)
    let fine : ℕ := if fine > 99 then 99 else fine
    (coarse_int.toNat, fine)

/-- `dx7_format_to_freq_ratio`: coarse 0 decodes to 0.50, otherwise
`coarse + fine/99`. -/
def dx7_format_to_freq_ratio (coarse fine : ℕ) : ℚ :=
  if coarse = 0 then 1/2 else (coarse : ℚ) + (fine : ℚ) / 99

/-- One 21-byte operator block of the encoder (`dx7_patch_to_sysex`,
per-operator loop body); `k` is the offset within the block. -/
def encodeOpByte (o : DxOperator) (k : ℕ) : ℕ :=
  match k with
  | 0 => byteOfInt (o.env_rates 0)
  | 1 => byteOfInt (o.env_rates 1)
  | 2 => byteOfInt (o.env_rates 2)
  | 3 => byteOfInt (o.env_rates 3)
  | 4 => byteOfInt (o.env_levels 0)
  | 5 => byteOfInt (o.env_levels 1)
  | 6 => byteOfInt (o.env_levels 2)
  | 7 => byteOfInt (o.env_levels 3)
  | 8 => byteOfInt o.key_level_scale_break_point
  | 9 => byteOfInt o.key_level_scale_left_depth
  | 10 => byteOfInt o.key_level_scale_right_depth
  | 11 => (o.key_level_scale_left_curve % 4).toNat
  | 12 => ((o.key_level_scale_right_curve % 4) + (o.key_rate_scaling % 8) * 4).toNat
  | 13 => ((o.key_vel_sens % 8) * 4).toNat
  | 14 => byteOfInt o.output_level
  | 15 => (o.osc_sync % 2).toNat + (freq_ratio_to_dx7_format o.freq_ratio).1 % 32 * 2
  | 16 => (freq_ratio_to_dx7_format o.freq_ratio).2
  | 17 => (o.osc_sync % 2).toNat + ((o.detune + 7) % 16).toNat % 16 * 2
  | _ => 0

/-- The 155-byte voice-data payload written by `dx7_patch_to_sysex`.
Operator blocks come first in reverse operator order (block `q` holds
operator `5 - q`), then the 29 global bytes. -/
def encodeVoiceData (p : Patch) : ℕ → ℕ := fun i =>
  if h : i < 126 then
    encodeOpByte (p.operators ⟨5 - i / 21, by omega⟩) (i % 21)
  else if h : i < 130 then
    byteOfInt (p.pitch_env_rates ⟨i - 126, by omega⟩)
  else if h : i < 134 then
    byteOfInt (p.pitch_env_levels ⟨i - 130, by omega⟩)
  else if i = 134 then ((p.algorithm - 1) % 32).toNat
  else if i = 135 then (p.feedback % 8).toNat
  else if i = 136 then byteOfInt p.lfo_speed
  else if i = 137 then byteOfInt p.lfo_delay
  else if i = 138 then byteOfInt p.lfo_pmd
  else if i = 139 then byteOfInt p.lfo_amd
  else if i = 140 then
    ((p.lfo_sync % 2) + (p.lfo_wave % 8) * 2 + (p.lfo_pitch_mod_sens % 8) * 16).toNat
  else if i = 141 then ((p.transpose + 24) % 64).toNat
  else if i < 152 then
    (if i - 142 < p.name.length then p.name.getD (i - 142) 0 % 256 else 32)
  else if i = 152 then 63
  else 0

/-- `dx7_patch_to_sysex`: rejects a channel outside 0..15, otherwise
builds the framed SysEx with checksum over the 155 voice-data bytes. -/
def dx7_patch_to_sysex (p : Patch) (channel : ℕ) : Option Sysex :=
  if channel > 15 then none
  else some
    { start_sysex := 0xF0
      manufacturer := 0x43
      sub_status := channel
      format := 0x00
      byte_count_msb := 0x01
      byte_count_lsb := 0x1B
      voice_data := encodeVoiceData p
      checksum := calculate_dx7_checksum (encodeVoiceData p) 155
      end_sysex := 0xF7 }

/-- Decoder for one 21-byte operator block (`dx7_sysex_to_patch`,
per-operator loop body); `g` reads the block's bytes by offset. -/
def decodeOp (g : ℕ → ℕ) : DxOperator where
  freq_ratio := dx7_format_to_freq_ratio (g 15 / 2 % 32) (g 16)
  detune := (g 17 / 2 % 16 : ℕ) - 7
  env_rates := fun r => (g r.val : ℤ)
  env_levels := fun r => (g (4 + r.val) : ℤ)
  output_level := g 14
  key_vel_sens := (g 13 / 4 % 8 : ℕ)
  key_level_scale_break_point := g 8
  key_level_scale_left_depth := g 9
  key_level_scale_right_depth := g 10
  key_level_scale_left_curve := (g 11 % 4 : ℕ)
  key_level_scale_right_curve := (g 12 % 4 : ℕ)
  key_rate_scaling := (g 12 / 4 % 8 : ℕ)
  osc_sync := (g 15 % 2 : ℕ)

/-- Drop trailing `' '` (32) bytes, as the decoder's trim loop does. -/
def trimTrailingSpaces (l : List ℕ) : List ℕ :=
  (l.reverse.dropWhile (· = 32)).reverse

/-- The name the decoder produces: the 10 name bytes, cut at the first
NUL (C-string semantics after `memset 0`), trailing spaces trimmed. -/
def decodedName (vd : ℕ → ℕ) : List ℕ :=
  trimTrailingSpaces (((List.range 10).map fun i => vd (142 + i)).takeWhile (· ≠ 0))

/-- The patch produced by a successful `dx7_sysex_to_patch` (the body
after the header and checksum checks; fields not present in the dump
are 0 from the initial `memset`). -/
def decodedPatch (s : Sysex) : Patch where
  name := decodedName s.voice_data
  operators := fun j => decodeOp fun off => s.voice_data ((5 - j.val) * 21 + off)
  algorithm := (s.voice_data 134 % 32 : ℕ) + 1
  feedback := (s.voice_data 135 % 8 : ℕ)
  lfo_speed := s.voice_data 136
  lfo_delay := s.voice_data 137
  lfo_pmd := s.voice_data 138
  lfo_amd := s.voice_data 139
  lfo_sync := (s.voice_data 140 % 2 : ℕ)
  lfo_wave := (s.voice_data 140 / 2 % 8 : ℕ)
  lfo_pitch_mod_sens := (s.voice_data 140 / 16 % 8 : ℕ)
  pitch_env_rates := fun r => (s.voice_data (126 + r.val) : ℤ)
  pitch_env_levels := fun r => (s.voice_data (130 + r.val) : ℤ)
  transpose := (s.voice_data 141 % 64 : ℕ) - 24
  poly_mono := 0
  pitch_bend_range := 0
  portamento_mode := 0
  portamento_gliss := 0
  portamento_time := 0

/-- `dx7_sysex_to_patch`: validates framing then checksum; on failure
returns `false` and leaves the destination patch `p` unmodified. -/
def dx7_sysex_to_patch (s : Sysex) (p : Patch) : Bool × Patch :=
  if s.start_sysex ≠ 0xF0 ∨ s.manufacturer ≠ 0x43 ∨ s.format ≠ 0x00 ∨
     s.byte_count_msb ≠ 0x01 ∨ s.byte_count_lsb ≠ 0x1B ∨ s.end_sysex ≠ 0xF7 then
    (false, p)
  else if calculate_dx7_checksum s.voice_data 155 ≠ s.checksum then
    (false, p)
  else
    (true, decodedPatch s)

/-! ## Envelope generator (`envelope.c`)

The envelope code only uses rational arithmetic on `double`s, so it is
embedded exactly over `ℚ`.  The runtime sample rate `g_sample_rate` is
passed explicitly. -/

/-- The 100-entry `rate_table` (seconds for a full-scale transition). -/
def rate_table : List ℚ :=
  [30.0, 25.0, 20.0, 18.0, 16.0, 14.0, 12.0, 10.0, 8.0, 6.0,
   5.5, 5.0, 4.5, 4.0, 3.5, 3.0, 2.8, 2.6, 2.4, 2.2,
   2.0, 1.8, 1.6, 1.4, 1.2, 1.0, 0.95, 0.90, 0.85, 0.80,
   0.75, 0.70, 0.65, 0.60, 0.55, 0.50, 0.47, 0.44, 0.41, 0.38,
   0.35, 0.32, 0.29, 0.26, 0.23, 0.20, 0.19, 0.18, 0.17, 0.16,
   0.15, 0.14, 0.13, 0.12, 0.11, 0.10, 0.095, 0.090, 0.085, 0.080,
   0.075, 0.070, 0.065, 0.060, 0.055, 0.050, 0.047, 0.044, 0.041, 0.038,
   0.035, 0.032, 0.029, 0.026, 0.023, 0.020, 0.018, 0.016, 0.014, 0.012,
   0.010, 0.009, 0.008, 0.007, 0.006, 0.005, 0.0045, 0.004, 0.0035, 0.003,
   0.0025, 0.002, 0.0018, 0.0016, 0.0014, 0.0012, 0.001, 0.0008, 0.0006, 0.0004]

/-- `dx7_envelope_rate_to_time`: nominal stage time for a rate index and
a signed level difference (in 0..99 units). -/
def dx7_envelope_rate_to_time (rate : ℤ) (level_diff : ℤ) : ℚ :=
  if rate = 0 then 30
  else if rate ≥ 99 then 0.0004
  else
    let base_time := rate_table.getD rate.toNat 0
    let scale : ℚ := (level_diff.natAbs : ℚ) / 99
    let scale := if scale < 0.1 then 0.1 else scale
    base_time * scale

/-- `envelope_state_t`.  Stage indices: 0 = Attack, 1 = Decay1,
2 = Decay2, 3 = Release. -/
structure EnvState where
  stage : ℕ
  level : ℚ
  rate : ℚ
  target : ℚ
  samples_in_stage : ℕ
  deriving DecidableEq

/-- `init_envelope`: start in Attack at level 0, aiming at
`env_levels[ATTACK]/99`. -/
def init_envelope (op : DxOperator) (rate_scale : ℚ) (sr : ℕ) : EnvState :=
  let attack_time := dx7_envelope_rate_to_time (op.env_rates 0) (op.env_levels 0)
  let attack_time := attack_time / (1 + rate_scale * ((op.key_rate_scaling : ℚ) / 7))
  { stage := 0
    level := 0
    samples_in_stage := 0
    rate := if attack_time > 0 then
              (op.env_levels 0 : ℚ) / (99 * attack_time * (sr : ℚ))
            else 99
    target := (op.env_levels 0 : ℚ) / 99 }

/-- `update_envelope`: one per-sample step of the envelope state
machine (the C function also returns the new level, here read off the
returned state). -/
def update_envelope (env : EnvState) (op : DxOperator) (rate_scale : ℚ) (sr : ℕ) :
    EnvState :=
  let env := { env with samples_in_stage := env.samples_in_stage + 1 }
  match env.stage with
  | 0 =>
    if env.level ≥ env.target ∨ op.env_rates 0 ≥ 99 then
      let level_diff := op.env_levels 0 - op.env_levels 1
      let decay1_time := dx7_envelope_rate_to_time (op.env_rates 1) level_diff
      let decay1_time := decay1_time / (1 + rate_scale * ((op.key_rate_scaling : ℚ) / 7))
      { env with
        stage := 1
        level := env.target
        samples_in_stage := 0
        rate := if decay1_time > 0 ∧ level_diff ≠ 0 then
                  -(level_diff : ℚ) / (99 * decay1_time * (sr : ℚ))
                else 0
        target := (op.env_levels 1 : ℚ) / 99 }
    else
      let level := env.level + env.rate
      { env with level := if level > env.target then env.target else level }
  | 1 =>
    if env.level ≤ env.target ∨ op.env_rates 1 ≥ 99 then
      let level_diff := op.env_levels 1 - op.env_levels 2
      let decay2_time := dx7_envelope_rate_to_time (op.env_rates 2) level_diff
      let decay2_time := decay2_time / (1 + rate_scale * ((op.key_rate_scaling : ℚ) / 7))
      { env with
        stage := 2
        level := env.target
        samples_in_stage := 0
        rate := if decay2_time > 0 ∧ level_diff ≠ 0 then
                  -(level_diff : ℚ) / (99 * decay2_time * (sr : ℚ))
                else 0
        target := (op.env_levels 2 : ℚ) / 99 }
    else
      let level := env.level + env.rate
      { env with level := if level < env.target then env.target else level }
  | 2 =>
    if env.level > env.target then
      let level := env.level + env.rate
      { env with level := if level < env.target then env.target else level }
    else env
  | _ =>
    let level := env.level + env.rate
    { env with level := if level < 0 then 0 else level }

/-- C truncation of a `double` toward zero, as used in
`trigger_release`'s `(int)(env->level * 99.0)`. -/
def cTrunc (q : ℚ) : ℤ := if 0 ≤ q then ⌊q⌋ else -⌊-q⌋

/-- `trigger_release`: force the envelope into Release, aiming at
`env_levels[RELEASE]/99` from the current level. -/
def trigger_release (env : EnvState) (op : DxOperator) (rate_scale : ℚ) (sr : ℕ) :
    EnvState :=
  let level_diff := cTrunc (env.level * 99) - op.env_levels 3
  let release_time := dx7_envelope_rate_to_time (op.env_rates 3) level_diff
  let release_time := release_time / (1 + rate_scale * ((op.key_rate_scaling : ℚ) / 7))
  { env with
    stage := 3
    samples_in_stage := 0
    rate := if release_time > 0 ∧ level_diff ≠ 0 then
              -(level_diff : ℚ) / (99 * release_time * (sr : ℚ))
            else -0.1
    target := (op.env_levels 3 : ℚ) / 99 }

/-! ## Oscillators (`oscillators.c`)

This code uses `sin`, `exp` and `pow`, so it is embedded over `ℝ`
(envelope sub-states remain exact `ℚ` and are cast where used).
The reads of the global `g_midi_system` (mod wheel, play mode) become
the explicit parameters `play` and `mod_wheel`. -/

/-- `operator_state_t`. -/
structure OperatorState where
  phase : ℝ
  freq : ℝ
  output : ℝ
  env : EnvState
  level_scale : ℝ
  rate_scale : ℚ

/-- `voice_state_t`. -/
structure VoiceState where
  operators : Fin 6 → OperatorState
  note_freq : ℝ
  midi_note : ℤ
  velocity : ℝ
  samples_played : ℕ
  lfo_phase : ℝ

/-- `midi_note_to_frequency`: `440 · 2^((n − 69)/12)`. -/
noncomputable def midi_note_to_frequency (midi_note : ℤ) : ℝ :=
  440 * (2 : ℝ) ^ (((midi_note : ℝ) - 69) / 12)

/-- `calculate_key_scaling`: break-point keyboard level scaling with the
four curve shapes, clamped to `[0, 2]`. -/
noncomputable def calculate_key_scaling (midi_note break_point left_depth right_depth
    left_curve right_curve : ℤ) : ℝ :=
  let scale : ℝ :=
    if midi_note < break_point then
      let distance : ℝ := ((break_point : ℝ) - (midi_note : ℝ)) / 127
      let depth : ℝ := (left_depth : ℝ) / 99
      if left_curve = 0 then 1 - distance * depth
      else if left_curve = 1 then 1 - depth * (1 - Real.exp (-distance * 3))
      else if left_curve = 2 then 1 + depth * (1 - Real.exp (-distance * 3))
      else if left_curve = 3 then 1 + distance * depth
      else 1
    else if midi_note > break_point then
      let distance : ℝ := ((midi_note : ℝ) - (break_point : ℝ)) / 127
      let depth : ℝ := (right_depth : ℝ) / 99
      if right_curve = 0 then 1 - distance * depth
      else if right_curve = 1 then 1 - depth * (1 - Real.exp (-distance * 3))
      else if right_curve = 2 then 1 + depth * (1 - Real.exp (-distance * 3))
      else if right_curve = 3 then 1 + distance * depth
      else 1
    else 1
  let scale := if scale < 0 then 0 else scale
  if scale > 2 then 2 else scale

/-- `init_operators`: set up a fresh voice at note-on (phases and
outputs zeroed, envelopes re-initialised in Attack). -/
noncomputable def init_operators (patch : Patch) (midi_note : ℤ) (velocity : ℝ)
    (sr : ℕ) : VoiceState :=
  let note_freq := midi_note_to_frequency midi_note
  { note_freq := note_freq
    midi_note := midi_note
    velocity := velocity
    samples_played := 0
    lfo_phase := 0
    operators := fun i =>
      let op := patch.operators i
      let rate_scale : ℚ := ((midi_note - 60 : ℤ) : ℚ) / 12 * ((op.key_rate_scaling : ℚ) / 7)
      { phase := 0
        freq := note_freq * ((op.freq_ratio : ℚ) : ℝ) *
          (2 : ℝ) ^ (((op.detune : ℝ) / 7) * 0.01)
        level_scale := calculate_key_scaling midi_note op.key_level_scale_break_point
          op.key_level_scale_left_depth op.key_level_scale_right_depth
          op.key_level_scale_left_curve op.key_level_scale_right_curve
        rate_scale := rate_scale
        env := init_envelope op rate_scale sr
        output := 0 } }

/-- The LFO phase after the per-sample advance at the top of
`process_operators` (mod-wheel speed multiplier included). -/
noncomputable def lfoPhaseNext (v : VoiceState) (p : Patch) (play : Bool) (mod_wheel : ℝ)
    (sr : ℕ) : ℝ :=
  let lfo_speed : ℝ := (p.lfo_speed : ℝ) / 99 * 6
  let mw := if play then mod_wheel else 0
  let speed_multiplier : ℝ := 0.1 + mw * 2.9
  let lfo_speed := lfo_speed * speed_multiplier
  let ph := v.lfo_phase + lfo_speed / (sr : ℝ)
  if ph ≥ 1 then ph - 1 else ph

/-- The per-sample LFO value `sin(2π · lfo_phase)`. -/
noncomputable def lfoValue (v : VoiceState) (p : Patch) (play : Bool) (mod_wheel : ℝ)
    (sr : ℕ) : ℝ :=
  Real.sin (2 * Real.pi * lfoPhaseNext v p play mod_wheel sr)

/-- Raw sine output of operator `i` this sample (`sin(2π · phase)`,
before the phase advance). -/
noncomputable def opRawOutput (v : VoiceState) (i : Fin 6) : ℝ :=
  Real.sin (2 * Real.pi * (v.operators i).phase)

/-- The envelope of operator `i` after this sample's `update_envelope`. -/
def opEnvNext (v : VoiceState) (p : Patch) (sr : ℕ) (i : Fin 6) : EnvState :=
  update_envelope (v.operators i).env (p.operators i) (v.operators i).rate_scale sr

/-- `total_level` of operator `i` this sample: output level × envelope
× velocity sensitivity × keyboard scaling × LFO amplitude modulation. -/
noncomputable def opTotalLevel (v : VoiceState) (p : Patch) (play : Bool) (mod_wheel : ℝ)
    (sr : ℕ) (i : Fin 6) : ℝ :=
  let op := p.operators i
  let vel_factor : ℝ := 1 - (1 - v.velocity) * ((op.key_vel_sens : ℝ) / 7)
  let total_level : ℝ := (op.output_level : ℝ) / 99 * (((opEnvNext v p sr i).level : ℚ) : ℝ) *
    vel_factor * (v.operators i).level_scale
  let lfo_amp_mod : ℝ := 1 + lfoValue v p play mod_wheel sr * (p.lfo_amd : ℝ) / 99 * 0.5
  total_level * lfo_amp_mod

/-- The phase of operator `i` after this sample's advance (LFO pitch
modulation applied to the frequency when `lfo_pmd > 0`). -/
noncomputable def opPhaseNext (v : VoiceState) (p : Patch) (play : Bool) (mod_wheel : ℝ)
    (sr : ℕ) (i : Fin 6) : ℝ :=
  let freq_with_lfo :=
    if p.lfo_pmd > 0 then
      let pitch_mod := lfoValue v p play mod_wheel sr * (p.lfo_pmd : ℝ) / 99 *
        ((p.lfo_pitch_mod_sens : ℝ) / 7) * 0.1
      (v.operators i).freq * (2 : ℝ) ^ pitch_mod
    else (v.operators i).freq
  let ph := (v.operators i).phase + freq_with_lfo / (sr : ℝ)
  if ph ≥ 1 then ph - 1 else ph

/-- Operator `i`'s state after one sample of the per-operator loop of
`process_operators` (its stored `output` becomes this sample's raw sine
scaled by this sample's `total_level`). -/
noncomputable def stepOperator (v : VoiceState) (p : Patch) (play : Bool) (mod_wheel : ℝ)
    (sr : ℕ) (i : Fin 6) : OperatorState :=
  { v.operators i with
    env := opEnvNext v p sr i
    phase := opPhaseNext v p play mod_wheel sr i
    output := opRawOutput v i * opTotalLevel v p play mod_wheel sr i }

/-- The feedback value handed to `process_algorithm`: operator 0's
stored output — the one just written by this sample's operator loop —
times `feedback/7 · 0.1`. -/
noncomputable def processOperatorsFeedback (v : VoiceState) (p : Patch) (play : Bool)
    (mod_wheel : ℝ) (sr : ℕ) : ℝ :=
  (stepOperator v p play mod_wheel sr 0).output * (p.feedback : ℝ) / 7 * 0.1

/-! ## Algorithm router (`algorithms.c`) -/

/-- `algorithm_def_t`: carriers (1-based operator numbers) and the
6×6 `[modulator][carrier]` strength matrix. -/
structure AlgorithmDef where
  carriers : List ℕ
  num_carriers : ℕ
  matrix : List (List ℕ)

/-- Matrix entry `[modulator][carrier]` of an algorithm definition. -/
def matEntry (a : AlgorithmDef) (m c : ℕ) : ℕ := (a.matrix.getD m []).getD c 0

/-- The 33-entry `algorithms` table (index 0 unused). -/
def algorithms : List AlgorithmDef := [
  ⟨[], 0, []⟩,
  ⟨[1], 1, [[0,0,0,0,0,0], [0,0,0,0,0,0], [0,1,0,0,0,0], [0,0,1,0,0,0], [0,0,0,1,0,0], [0,0,0,0,1,0]]⟩,
  ⟨[1,2], 2, [[0,0,0,0,0,0], [0,0,0,0,0,0], [0,0,1,0,0,0], [0,0,0,1,0,0], [0,0,0,0,1,0], [0,0,0,0,0,0]]⟩,
  ⟨[1,3], 2, [[0,0,0,0,0,0], [1,0,0,0,0,0], [0,0,0,0,0,0], [0,0,0,0,0,0], [0,0,0,1,0,0], [0,0,0,0,1,0]]⟩,
  ⟨[1,4], 2, [[0,0,0,0,0,0], [1,0,0,0,0,0], [0,1,0,0,0,0], [0,0,0,0,0,0], [0,0,0,0,0,0], [0,0,0,0,1,0]]⟩,
  ⟨[1,5], 2, [[0,0,0,0,0,0], [1,0,0,0,0,0], [0,1,0,0,0,0], [0,0,1,0,0,0], [0,0,0,0,0,0], [0,0,0,0,0,0]]⟩,
  ⟨[1,2,5], 3, [[0,0,0,0,0,0], [0,0,0,0,0,0], [0,1,0,0,0,0], [0,0,1,0,0,0], [0,0,0,0,0,0], [0,0,0,0,0,0]]⟩,
  ⟨[1,3,5], 3, [[0,0,0,0,0,0], [1,0,0,0,0,0], [0,0,0,0,0,0], [0,0,0,0,0,0], [0,0,0,0,0,0], [0,0,0,0,0,0]]⟩,
  ⟨[1,2,3,5], 4, [[0,0,0,0,0,0], [0,0,0,0,0,0], [0,0,0,0,0,0], [0,0,0,0,0,0], [0,0,0,0,0,0], [0,0,0,0,0,0]]⟩,
  ⟨[1,4,5], 3, [[0,0,0,0,0,0], [1,0,0,0,0,0], [0,1,0,0,0,0], [0,0,0,0,0,0], [0,0,0,0,0,0], [0,0,0,0,0,0]]⟩,
  ⟨[1,2,4,5], 4, [[0,0,0,0,0,0], [0,0,0,0,0,0], [0,1,0,0,0,0], [0,0,0,0,0,0], [0,0,0,0,0,0], [0,0,0,0,0,0]]⟩,
  ⟨[1,3,4,5], 4, [[0,0,0,0,0,0], [1,0,0,0,0,0], [0,0,0,0,0,0], [0,0,0,0,0,0], [0,0,0,0,0,0], [0,0,0,0,0,0]]⟩,
  ⟨[1,2,3,4,5], 5, [[0,0,0,0,0,0], [0,0,0,0,0,0], [0,0,0,0,0,0], [0,0,0,0,0,0], [0,0,0,0,0,0], [0,0,0,0,0,0]]⟩,
  ⟨[1,6], 2, [[0,0,0,0,0,0], [1,0,0,0,0,0], [0,1,0,0,0,0], [0,0,1,0,0,0], [0,0,0,1,0,0], [0,0,0,0,0,0]]⟩,
  ⟨[1,2,6], 3, [[0,0,0,0,0,0], [0,0,0,0,0,0], [0,1,0,0,0,0], [0,0,1,0,0,0], [0,0,0,1,0,0], [0,0,0,0,0,0]]⟩,
  ⟨[1,3,6], 3, [[0,0,0,0,0,0], [1,0,0,0,0,0], [0,0,0,0,0,0], [0,0,0,0,0,0], [0,0,0,1,0,0], [0,0,0,0,0,0]]⟩,
  ⟨[1,4,6], 3, [[0,0,0,0,0,0], [1,0,0,0,0,0], [0,1,0,0,0,0], [0,0,0,0,0,0], [0,0,0,0,0,0], [0,0,0,0,0,0]]⟩,
  ⟨[1,2,4,6], 4, [[0,0,0,0,0,0], [0,0,0,0,0,0], [0,1,0,0,0,0], [0,0,0,0,0,0], [0,0,0,0,0,0], [0,0,0,0,0,0]]⟩,
  ⟨[1,3,4,6], 4, [[0,0,0,0,0,0], [1,0,0,0,0,0], [0,0,0,0,0,0], [0,0,0,0,0,0], [0,0,0,0,0,0], [0,0,0,0,0,0]]⟩,
  ⟨[1,5,6], 3, [[0,0,0,0,0,0], [1,0,0,0,0,0], [0,1,0,0,0,0], [0,0,1,0,0,0], [0,0,0,0,0,0], [0,0,0,0,0,0]]⟩,
  ⟨[1,2,5,6], 4, [[0,0,0,0,0,0], [0,0,0,0,0,0], [0,1,0,0,0,0], [0,0,1,0,0,0], [0,0,0,0,0,0], [0,0,0,0,0,0]]⟩,
  ⟨[1,3,5,6], 4, [[0,0,0,0,0,0], [1,0,0,0,0,0], [0,0,0,0,0,0], [0,0,0,0,0,0], [0,0,0,0,0,0], [0,0,0,0,0,0]]⟩,
  ⟨[1,4,5,6], 4, [[0,0,0,0,0,0], [1,0,0,0,0,0], [0,1,0,0,0,0], [0,0,0,0,0,0], [0,0,0,0,0,0], [0,0,0,0,0,0]]⟩,
  ⟨[1,2,4,5,6], 5, [[0,0,0,0,0,0], [0,0,0,0,0,0], [0,1,0,0,0,0], [0,0,0,0,0,0], [0,0,0,0,0,0], [0,0,0,0,0,0]]⟩,
  ⟨[1,3,4,5,6], 5, [[0,0,0,0,0,0], [1,0,0,0,0,0], [0,0,0,0,0,0], [0,0,0,0,0,0], [0,0,0,0,0,0], [0,0,0,0,0,0]]⟩,
  ⟨[1,2,3,4,5,6], 6, [[0,0,0,0,0,0], [0,0,0,0,0,0], [0,0,0,0,0,0], [0,0,0,0,0,0], [0,0,0,0,0,0], [0,0,0,0,0,0]]⟩,
  ⟨[1], 1, [[0,0,0,0,0,0], [1,0,0,0,0,0], [0,1,0,0,0,0], [0,0,1,0,0,0], [0,0,0,1,0,0], [0,0,0,1,0,0]]⟩,
  ⟨[1,2], 2, [[0,0,0,0,0,0], [0,0,0,0,0,0], [0,1,0,0,0,0], [0,0,1,0,0,0], [0,0,0,1,0,0], [0,0,0,1,0,0]]⟩,
  ⟨[1,3], 2, [[0,0,0,0,0,0], [1,0,0,0,0,0], [0,0,0,0,0,0], [0,0,0,1,0,0], [0,0,0,1,0,0], [0,0,0,1,0,0]]⟩,
  ⟨[1,4], 2, [[0,0,0,0,0,0], [1,0,0,0,0,0], [0,1,0,0,0,0], [0,0,0,0,0,0], [0,0,0,0,1,0], [0,0,0,0,1,0]]⟩,
  ⟨[1,2,4], 3, [[0,0,0,0,0,0], [0,0,0,0,0,0], [0,1,0,0,0,0], [0,0,0,0,0,0], [0,0,0,1,0,0], [0,0,0,1,0,0]]⟩,
  ⟨[1,3,4], 3, [[0,0,0,0,0,0], [1,0,0,0,0,0], [0,0,0,0,0,0], [0,0,0,0,0,0], [0,0,0,1,0,0], [0,0,0,1,0,0]]⟩,
  ⟨[1,2,3,4], 4, [[0,0,0,0,0,0], [0,0,0,0,0,0], [0,0,0,0,0,0], [0,0,0,0,0,0], [1,1,1,1,0,0], [1,1,1,1,0,0]]⟩]

/-- `apply_fm_modulation`: `sin(2π · carrier_freq + modulator · index)`. -/
noncomputable def apply_fm_modulation (carrier_freq modulator_output mod_index : ℝ) : ℝ :=
  Real.sin (2 * Real.pi * carrier_freq + modulator_output * mod_index)

/-- The feedback step of `process_algorithm`: only a nonzero
`feedback_val` rewrites `processed[0]`. -/
noncomputable def algFeedbackStep (processed : Fin 6 → ℝ) (feedback_val : ℝ) : Fin 6 → ℝ :=
  if feedback_val ≠ 0 then
    Function.update processed 0 (Real.sin (2 * Real.pi * processed 0 + feedback_val))
  else processed

/-- The modulation-matrix sweep of `process_algorithm` (modulators then
carriers, in index order, updating `processed` in place). -/
noncomputable def algMatrixSweep (alg : AlgorithmDef) (op_levels : Fin 6 → ℝ)
    (processed : Fin 6 → ℝ) : Fin 6 → ℝ :=
  (List.finRange 6).foldl (fun acc m =>
    (List.finRange 6).foldl (fun acc2 c =>
      if matEntry alg m.val c.val > 0 then
        Function.update acc2 c
          (apply_fm_modulation 1 (acc2 m) ((matEntry alg m.val c.val : ℝ) * op_levels m * 2))
      else acc2) acc) processed

/-- The carrier sum of `process_algorithm` (1-based carrier numbers,
with the bounds guard of the C loop). -/
noncomputable def algCarrierSum (alg : AlgorithmDef) (processed : Fin 6 → ℝ) : ℝ :=
  (alg.carriers.take alg.num_carriers).foldl (fun s c =>
    if h : 1 ≤ c ∧ c - 1 < 6 then s + processed ⟨c - 1, h.2⟩ else s) 0

/-- `process_algorithm`: level-scale the six raw outputs, apply
feedback to operator 0, sweep the modulation matrix, sum the carriers
and normalise by `√num_carriers`.  An algorithm outside 1..32 is
coerced to 1. -/
noncomputable def process_algorithm (op_outputs op_levels : Fin 6 → ℝ) (algorithm : ℤ)
    (feedback_val : ℝ) : ℝ :=
  let algorithm := if algorithm < 1 ∨ algorithm > 32 then 1 else algorithm
  let alg := algorithms.getD algorithm.toNat ⟨[], 0, []⟩
  let processed : Fin 6 → ℝ := fun i => op_outputs i * op_levels i
  let processed := algFeedbackStep processed feedback_val
  let processed := algMatrixSweep alg op_levels processed
  let final := algCarrierSum alg processed
  if alg.num_carriers > 0 then final / Real.sqrt (alg.num_carriers : ℝ) else final

/-- `process_operators`: one sample of a voice — update the LFO and
each operator, then route through the algorithm with the feedback value
computed from operator 0's just-stored output.  Returns the voice
sample and the updated voice state. -/
noncomputable def process_operators (v : VoiceState) (p : Patch) (play : Bool)
    (mod_wheel : ℝ) (sr : ℕ) : ℝ × VoiceState :=
  let outs : Fin 6 → ℝ := fun i => opRawOutput v i
  let lvls : Fin 6 → ℝ := fun i => opTotalLevel v p play mod_wheel sr i
  let newOps : Fin 6 → OperatorState := fun i => stepOperator v p play mod_wheel sr i
  let feedback_value := processOperatorsFeedback v p play mod_wheel sr
  (process_algorithm outs lvls p.algorithm feedback_value,
   { v with
     operators := newOps
     lfo_phase := lfoPhaseNext v p play mod_wheel sr
     samples_played := v.samples_played + 1 })

/-! ## MIDI parser, dispatcher and voice manager (`midi_input.c`) -/

/-- `midi_parser_state_t`. -/
structure MidiParser where
  running_status : ℕ
  data_bytes_needed : ℕ
  data_bytes_received : ℕ
  data_buffer : ℕ → ℕ
  in_sysex : Bool
  sysex_buffer : ℕ → ℕ
  sysex_length : ℕ

/-- The parser's initial (zeroed) state. -/
def initParser : MidiParser :=
  { running_status := 0
    data_bytes_needed := 0
    data_bytes_received := 0
    data_buffer := fun _ => 0
    in_sysex := false
    sysex_buffer := fun _ => 0
    sysex_length := 0 }

/-- `midi_parse_byte`: one byte of the running-status parser.  Returns
the new parser state, the complete message (status, data1, data2)
dispatched by this byte if any, and whether the orphan-data-byte error
counter was bumped. -/
def midi_parse_byte (ps : MidiParser) (b : ℕ) : MidiParser × Option (ℕ × ℕ × ℕ) × Bool :=
  if b ≥ 0x80 then
    if b = 0xF0 then
      ({ ps with in_sysex := true, sysex_length := 0 }, none, false)
    else if b = 0xF7 then
      ({ ps with in_sysex := false }, none, false)
    else if b ≥ 0xF8 then
      (ps, none, false)
    else
      let msg_type := b / 16 * 16
      let needed := if msg_type = 0xC0 ∨ msg_type = 0xD0 then 1 else 2
      ({ ps with running_status := b, data_bytes_received := 0, data_bytes_needed := needed },
       none, false)
  else
    if ps.in_sysex then
      if ps.sysex_length < 512 then
        ({ ps with
            sysex_buffer := Function.update ps.sysex_buffer ps.sysex_length b
            sysex_length := ps.sysex_length + 1 }, none, false)
      else (ps, none, false)
    else if ps.running_status = 0 then
      (ps, none, true)
    else
      let ps := { ps with
        data_buffer := Function.update ps.data_buffer ps.data_bytes_received b
        data_bytes_received := ps.data_bytes_received + 1 }
      if ps.data_bytes_received ≥ ps.data_bytes_needed then
        let data1 := if ps.data_bytes_needed > 0 then ps.data_buffer 0 else 0
        let data2 := if ps.data_bytes_needed > 1 then ps.data_buffer 1 else 0
        ({ ps with data_bytes_received := 0 }, some (ps.running_status, data1, data2), false)
      else (ps, none, false)

/-- Feed a byte list through `midi_parse_byte`, collecting the messages
handed to the dispatcher, in order. -/
def parseBytes (ps : MidiParser) : List ℕ → MidiParser × List (ℕ × ℕ × ℕ)
  | [] => (ps, [])
  | b :: rest =>
    let r := midi_parse_byte ps b
    let rec_r := parseBytes r.1 rest
    (rec_r.1, r.2.1.toList ++ rec_r.2)

/-- The data-byte count the parser requires after status byte `s`
(1 for Program Change and Channel Pressure, else 2). -/
def statusDataCount (s : ℕ) : ℕ :=
  if s / 16 * 16 = 0xC0 ∨ s / 16 * 16 = 0xD0 then 1 else 2

/-- The byte sequence of one complete channel-voice message: the status
byte followed by its required data bytes. -/
def messageBytes (s d1 d2 : ℕ) : List ℕ :=
  if statusDataCount s = 1 then [s, d1] else [s, d1, d2]

/-- `midi_controllers_t` (floats as exact `ℚ`). -/
structure MidiControllers where
  pitch_bend : ℚ
  mod_wheel : ℚ
  breath : ℚ
  foot : ℚ
  volume : ℚ
  expression : ℚ
  pan : ℚ
  sustain_pedal : Bool
  portamento : Bool
  controllers : Fin 128 → ℚ
  deriving DecidableEq

/-- The `memset(0)`-ed controller struct. -/
def zeroControllers : MidiControllers :=
  { pitch_bend := 0, mod_wheel := 0, breath := 0, foot := 0, volume := 0,
    expression := 0, pan := 0, sustain_pedal := false, portamento := false,
    controllers := fun _ => 0 }

/-- Controller state after `midi_input_initialize`: zeroed, then
volume, expression and CC slots 7 and 11 set to 1.0. -/
def initControllers : MidiControllers :=
  { zeroControllers with
    volume := 1
    expression := 1
    controllers := Function.update (Function.update zeroControllers.controllers 7 1) 11 1 }

/-- `midi_to_float`: 0..127 to 0.0..1.0. -/
def midi_to_float (v : ℕ) : ℚ := (v : ℚ) / 127

/-- `midi_to_bipolar`: 0..127 to −1.0..+1.0. -/
def midi_to_bipolar (v : ℕ) : ℚ := (v : ℚ) / 127 * 2 - 1

/-- `poly_voice_t`. -/
structure PolyVoice where
  active : Bool
  midi_note : ℕ
  velocity : ℕ
  channel : ℕ
  synth_voice : VoiceState
  note_on_time : ℕ
  sustain_held : Bool

/-- The mutable engine state the MIDI handlers touch (`g_midi_system`
minus platform handles; the clock and sample rate become parameters). -/
structure MidiSystem where
  voices : Fin 16 → PolyVoice
  voice_count : ℤ
  controllers : MidiControllers
  current_channel : ℕ
  current_patch : Patch
  notes_played : ℕ
  voice_steals : ℕ

/-- `find_voice`: index of the first active voice with this note and
channel. -/
def find_voice (sys : MidiSystem) (midi_note channel : ℕ) : Option (Fin 16) :=
  (List.finRange 16).find? fun i =>
    (sys.voices i).active ∧ (sys.voices i).midi_note = midi_note ∧
      (sys.voices i).channel = channel

/-- Put every operator envelope of a voice into Release
(the `trigger_release` loop shared by note-off and the sustain sweep). -/
def releaseAllOps (vs : VoiceState) (p : Patch) (sr : ℕ) : VoiceState :=
  { vs with operators := fun op =>
      { vs.operators op with
        env := trigger_release (vs.operators op).env (p.operators op)
          (vs.operators op).rate_scale sr } }

/-- A freshly allocated voice slot (`allocate_voice`'s initialisation,
shared by the free-slot and steal paths). -/
noncomputable def initPolyVoice (p : Patch) (midi_note velocity channel now sr : ℕ) :
    PolyVoice :=
  { active := true
    midi_note := midi_note
    velocity := velocity
    channel := channel
    note_on_time := now
    sustain_held := false
    synth_voice := init_operators p (midi_note : ℤ) ((velocity : ℝ) / 127) sr }

/-- The first-inactive-slot scan of `allocate_voice`. -/
def firstInactive (sys : MidiSystem) : Option (Fin 16) :=
  (List.finRange 16).find? fun i => !(sys.voices i).active

/-- The oldest-slot scan of `allocate_voice` (runs when no slot is
free): start from slot 0 and keep the smaller `note_on_time`. -/
def oldestSlot (sys : MidiSystem) : Fin 16 × ℕ :=
  ((List.finRange 16).drop 1).foldl
    (fun (acc : Fin 16 × ℕ) i =>
      if (sys.voices i).note_on_time < acc.2 then (i, (sys.voices i).note_on_time) else acc)
    (0, (sys.voices 0).note_on_time)

attribute [irreducible] firstInactive oldestSlot

/-- `allocate_voice`: first inactive slot, else steal the slot with the
oldest `note_on_time`; either way the slot is re-initialised.  Returns
the slot index and the new state.  `now` is `get_time_microseconds()`. -/
noncomputable def allocate_voice (sys : MidiSystem) (midi_note velocity channel now sr : ℕ) :
    ℕ × MidiSystem :=
  match firstInactive sys with
  | some i =>
    (i.val,
     { sys with
       voices := Function.update sys.voices i (initPolyVoice sys.current_patch midi_note velocity channel now sr)
       voice_count := sys.voice_count + 1 })
  | none =>
    let best := oldestSlot sys
    (best.1.val,
     { sys with
       voices := Function.update sys.voices best.1
         (initPolyVoice sys.current_patch midi_note velocity channel now sr)
       voice_steals := sys.voice_steals + 1 })

/-- `release_all_voices`. -/
def release_all_voices (sys : MidiSystem) : MidiSystem :=
  { sys with
    voices := fun i => { sys.voices i with active := false, sustain_held := false }
    voice_count := 0 }

/-- `handle_note_on` (velocity 0 already filtered by the dispatcher). -/
noncomputable def handle_note_on (sys : MidiSystem) (channel note velocity now sr : ℕ) :
    MidiSystem :=
  if note > 127 ∨ velocity = 0 then sys
  else
    let r := allocate_voice sys note velocity channel now sr
    { r.2 with notes_played := r.2.notes_played + 1 }

/-- `handle_note_off`: if the sustain pedal is held, mark the voice
`sustain_held`; otherwise put every operator envelope into Release. -/
def handle_note_off (sys : MidiSystem) (channel note : ℕ) (sr : ℕ) : MidiSystem :=
  match find_voice sys note channel with
  | none => sys
  | some i =>
    let v := sys.voices i
    if sys.controllers.sustain_pedal then
      { sys with voices := Function.update sys.voices i { v with sustain_held := true } }
    else
      let v' := { v with synth_voice := releaseAllOps v.synth_voice sys.current_patch sr }
      { sys with voices := Function.update sys.voices i v' }

/-- The sustain-pedal-up sweep: release and unflag exactly the active
voices marked `sustain_held`. -/
def sustainSweep (sys : MidiSystem) (sr : ℕ) : MidiSystem :=
  { sys with voices := fun i =>
      let v := sys.voices i
      if v.active ∧ v.sustain_held then
        { v with
          sustain_held := false
          synth_voice := releaseAllOps v.synth_voice sys.current_patch sr }
      else v }

/-- `handle_control_change`: store the raw CC value in the dense array,
then apply the named controller. -/
def handle_control_change (sys : MidiSystem) (_channel controller value : ℕ) (sr : ℕ) :
    MidiSystem :=
  let sys :=
    if h : controller < 128 then
      { sys with controllers := { sys.controllers with
          controllers := Function.update sys.controllers.controllers ⟨controller, h⟩
            (midi_to_float value) } }
    else sys
  if controller = 1 then
    { sys with controllers := { sys.controllers with mod_wheel := midi_to_float value } }
  else if controller = 2 then
    { sys with controllers := { sys.controllers with breath := midi_to_float value } }
  else if controller = 4 then
    { sys with controllers := { sys.controllers with foot := midi_to_float value } }
  else if controller = 7 then
    { sys with controllers := { sys.controllers with volume := midi_to_float value } }
  else if controller = 11 then
    { sys with controllers := { sys.controllers with expression := midi_to_float value } }
  else if controller = 10 then
    { sys with controllers := { sys.controllers with pan := midi_to_bipolar value } }
  else if controller = 64 then
    let sys := { sys with controllers := { sys.controllers with sustain_pedal := value ≥ 64 } }
    if ¬ (value ≥ 64) then sustainSweep sys sr else sys
  else if controller = 65 then
    { sys with controllers := { sys.controllers with portamento := value ≥ 64 } }
  else if controller = 120 ∨ controller = 123 then
    release_all_voices sys
  else if controller = 121 then
    { sys with controllers := { zeroControllers with volume := 1, expression := 1 } }
  else sys

/-- `handle_pitch_bend`: 14-bit value to −1..+1. -/
def handle_pitch_bend (sys : MidiSystem) (_channel : ℕ) (bend_value : ℕ) : MidiSystem :=
  { sys with controllers := { sys.controllers with
      pitch_bend := ((bend_value : ℚ) - 8192) / 8192 } }

/-- `midi_handle_message`: channel filter, then dispatch by message
type (program change and channel pressure are stubs). -/
noncomputable def midi_handle_message (sys : MidiSystem) (status data1 data2 now sr : ℕ) :
    MidiSystem :=
  let msg_type := status / 16 * 16
  let channel := status % 16
  if channel ≠ sys.current_channel then sys
  else if msg_type = 0x90 then
    if data2 > 0 then handle_note_on sys channel data1 data2 now sr
    else handle_note_off sys channel data1 sr
  else if msg_type = 0x80 then handle_note_off sys channel data1 sr
  else if msg_type = 0xB0 then handle_control_change sys channel data1 data2 sr
  else if msg_type = 0xE0 then handle_pitch_bend sys channel (data1 + data2 * 128)
  else sys

/-- The all-zero patch (`memset(patch, 0, ...)`). -/
def zeroOperator : DxOperator where
  freq_ratio := 0
  detune := 0
  env_rates := fun _ => 0
  env_levels := fun _ => 0
  output_level := 0
  key_vel_sens := 0
  key_level_scale_break_point := 0
  key_level_scale_left_depth := 0
  key_level_scale_right_depth := 0
  key_level_scale_left_curve := 0
  key_level_scale_right_curve := 0
  key_rate_scaling := 0
  osc_sync := 0

/-- The all-zero patch, used as the untouched decode destination. -/
def zeroPatch : Patch where
  name := []
  operators := fun _ => zeroOperator
  algorithm := 0
  feedback := 0
  lfo_speed := 0
  lfo_delay := 0
  lfo_pmd := 0
  lfo_amd := 0
  lfo_sync := 0
  lfo_wave := 0
  lfo_pitch_mod_sens := 0
  pitch_env_rates := fun _ => 0
  pitch_env_levels := fun _ => 0
  transpose := 0
  poly_mono := 0
  pitch_bend_range := 0
  portamento_mode := 0
  portamento_gliss := 0
  portamento_time := 0

/-! ## Range and canonical-form predicates -/

/-- All integer fields of an operator within the ranges declared in
`dx7.h` / the data model (`freq_ratio` 0.50..31.99, `detune` −7..+7,
envelope rates/levels 0..99, etc.). -/
def OperatorInRange (o : DxOperator) : Prop :=
  (∀ r, 0 ≤ o.env_rates r ∧ o.env_rates r ≤ 99) ∧
  (∀ r, 0 ≤ o.env_levels r ∧ o.env_levels r ≤ 99) ∧
  (0 ≤ o.output_level ∧ o.output_level ≤ 99) ∧
  (0 ≤ o.key_vel_sens ∧ o.key_vel_sens ≤ 7) ∧
  (0 ≤ o.key_level_scale_break_point ∧ o.key_level_scale_break_point ≤ 127) ∧
  (0 ≤ o.key_level_scale_left_depth ∧ o.key_level_scale_left_depth ≤ 99) ∧
  (0 ≤ o.key_level_scale_right_depth ∧ o.key_level_scale_right_depth ≤ 99) ∧
  (0 ≤ o.key_level_scale_left_curve ∧ o.key_level_scale_left_curve ≤ 3) ∧
  (0 ≤ o.key_level_scale_right_curve ∧ o.key_level_scale_right_curve ≤ 3) ∧
  (0 ≤ o.key_rate_scaling ∧ o.key_rate_scaling ≤ 7) ∧
  (0 ≤ o.osc_sync ∧ o.osc_sync ≤ 1) ∧
  (-7 ≤ o.detune ∧ o.detune ≤ 7) ∧
  (1/2 ≤ o.freq_ratio ∧ o.freq_ratio < 32)

/-- All fields of a patch within their declared ranges (name at most
10 non-NUL ASCII bytes). -/
def PatchInRange (p : Patch) : Prop :=
  (∀ j, OperatorInRange (p.operators j)) ∧
  (1 ≤ p.algorithm ∧ p.algorithm ≤ 32) ∧
  (0 ≤ p.feedback ∧ p.feedback ≤ 7) ∧
  (0 ≤ p.lfo_speed ∧ p.lfo_speed ≤ 99) ∧
  (0 ≤ p.lfo_delay ∧ p.lfo_delay ≤ 99) ∧
  (0 ≤ p.lfo_pmd ∧ p.lfo_pmd ≤ 99) ∧
  (0 ≤ p.lfo_amd ∧ p.lfo_amd ≤ 99) ∧
  (0 ≤ p.lfo_sync ∧ p.lfo_sync ≤ 1) ∧
  (0 ≤ p.lfo_wave ∧ p.lfo_wave ≤ 5) ∧
  (0 ≤ p.lfo_pitch_mod_sens ∧ p.lfo_pitch_mod_sens ≤ 7) ∧
  (∀ r, 0 ≤ p.pitch_env_rates r ∧ p.pitch_env_rates r ≤ 99) ∧
  (∀ r, 0 ≤ p.pitch_env_levels r ∧ p.pitch_env_levels r ≤ 99) ∧
  (-24 ≤ p.transpose ∧ p.transpose ≤ 24) ∧
  (p.name.length ≤ 10 ∧ ∀ b ∈ p.name, 0 < b ∧ b < 128)

/-- The integer fields of two operators agree (everything except the
quantised `freq_ratio`). -/
def OperatorFieldsEq (a b : DxOperator) : Prop :=
  a.detune = b.detune ∧ a.env_rates = b.env_rates ∧ a.env_levels = b.env_levels ∧
  a.output_level = b.output_level ∧ a.key_vel_sens = b.key_vel_sens ∧
  a.key_level_scale_break_point = b.key_level_scale_break_point ∧
  a.key_level_scale_left_depth = b.key_level_scale_left_depth ∧
  a.key_level_scale_right_depth = b.key_level_scale_right_depth ∧
  a.key_level_scale_left_curve = b.key_level_scale_left_curve ∧
  a.key_level_scale_right_curve = b.key_level_scale_right_curve ∧
  a.key_rate_scaling = b.key_rate_scaling ∧ a.osc_sync = b.osc_sync

/-- Canonical form of one 21-byte operator block: the bits the decoder
ignores are zero, the fine byte is consistent with the coarse byte, and
byte 17's sync bit matches byte 15's. -/
def opBlockCanonical (g : ℕ → ℕ) : Prop :=
  g 11 < 4 ∧ g 12 < 32 ∧ (g 13 < 32 ∧ g 13 % 4 = 0) ∧ g 15 < 64 ∧
  (g 15 / 2 % 32 = 0 → g 16 = 0) ∧ (g 15 / 2 % 32 ≠ 0 → g 16 ≤ 98) ∧
  g 17 < 32 ∧ g 17 % 2 = g 15 % 2 ∧ g 18 = 0 ∧ g 19 = 0 ∧ g 20 = 0

/-- A voice SysEx in the image of the encoder: valid framing and
checksum, and voice-data bytes in canonical form (ignored bits zero,
operator-on mask `0x3F`, non-NUL name bytes, trailing bytes zero). -/
def CanonicalSysex (s : Sysex) : Prop :=
  s.start_sysex = 0xF0 ∧ s.manufacturer = 0x43 ∧ s.sub_status ≤ 15 ∧ s.format = 0 ∧
  s.byte_count_msb = 1 ∧ s.byte_count_lsb = 0x1B ∧ s.end_sysex = 0xF7 ∧
  s.checksum = calculate_dx7_checksum s.voice_data 155 ∧
  (∀ i < 155, s.voice_data i < 256) ∧
  (∀ q < 6, opBlockCanonical fun off => s.voice_data (q * 21 + off)) ∧
  s.voice_data 134 < 32 ∧ s.voice_data 135 < 8 ∧ s.voice_data 140 < 128 ∧
  s.voice_data 141 < 64 ∧
  (∀ i < 10, s.voice_data (142 + i) ≠ 0) ∧
  s.voice_data 152 = 63 ∧ s.voice_data 153 = 0 ∧ s.voice_data 154 = 0

/-! ## Spec-side variants (for refinement comparison only)

These two definitions follow the **spec's words**, not the source; they
exist to be compared against the source-derived definitions above. -/

/-- Modelled from the spec: "`scaled[0] = sin(2π · scaled[0] +
feedback_value)` … applied for every value of `feedback_value`" — the
feedback rewrite without the source's `feedback_val != 0.0` guard. -/
noncomputable def algFeedbackStepSpec (processed : Fin 6 → ℝ) (feedback_val : ℝ) :
    Fin 6 → ℝ :=
  Function.update processed 0 (Real.sin (2 * Real.pi * processed 0 + feedback_val))

/-- Modelled from the spec: `process_algorithm` with the unconditional
feedback rewrite of `algFeedbackStepSpec`. -/
noncomputable def process_algorithm_spec (op_outputs op_levels : Fin 6 → ℝ)
    (algorithm : ℤ) (feedback_val : ℝ) : ℝ :=
  let algorithm := if algorithm < 1 ∨ algorithm > 32 then 1 else algorithm
  let alg := algorithms.getD algorithm.toNat ⟨[], 0, []⟩
  let processed : Fin 6 → ℝ := fun i => op_outputs i * op_levels i
  let processed := algFeedbackStepSpec processed feedback_val
  let processed := algMatrixSweep alg op_levels processed
  let final := algCarrierSum alg processed
  if alg.num_carriers > 0 then final / Real.sqrt (alg.num_carriers : ℝ) else final

/-- Modelled from the spec: "`feedback_value = prev_op0_scaled_output ·
(patch.feedback/7) · 0.1`", where `prev_op0_scaled_output` is the
output stored at the END of the PREVIOUS sample — i.e. the voice's
stored `output` as it stands when `process_operators` is entered. -/
noncomputable def processOperatorsFeedbackSpec (v : VoiceState) (p : Patch) : ℝ :=
  (v.operators 0).output * (p.feedback : ℝ) / 7 * 0.1

/-! ## Concrete inputs for counterexamples and witnesses -/

/-- A zeroed runtime operator state. -/
def zeroOpState : OperatorState :=
  { phase := 0, freq := 0, output := 0, env := ⟨0, 0, 0, 0, 0⟩,
    level_scale := 0, rate_scale := 0 }

/-- A zeroed runtime voice state. -/
def zeroVoiceState : VoiceState :=
  { operators := fun _ => zeroOpState, note_freq := 0, midi_note := 0,
    velocity := 0, samples_played := 0, lfo_phase := 0 }

/-- A zeroed (inactive) polyphony slot. -/
def zeroPolyVoice : PolyVoice :=
  { active := false, midi_note := 0, velocity := 0, channel := 0,
    synth_voice := zeroVoiceState, note_on_time := 0, sustain_held := false }

/-- A zeroed engine state with the post-initialisation controllers. -/
def zeroSystem : MidiSystem :=
  { voices := fun _ => zeroPolyVoice, voice_count := 0,
    controllers := initControllers, current_channel := 0,
    current_patch := zeroPatch, notes_played := 0, voice_steals := 0 }

/-- An operator whose Release stage aims at level 99 at rate 99
(release target far above a low current level). -/
def releaseRiseOp : DxOperator :=
  { zeroOperator with
    env_rates := fun r => if r.val = 3 then 99 else 0
    env_levels := fun r => if r.val = 3 then 99 else 0 }

/-- A voice whose operator frequency is 96000 Hz (twice a 48 kHz
sample rate). -/
def phaseOverflowVoice : VoiceState :=
  { zeroVoiceState with operators := fun _ => { zeroOpState with freq := 96000 } }

/-- A valid SysEx whose only nonzero voice-data byte is operator
block 0's byte 17 (value 30: detune field 15, sync bit 0); its checksum
is (128 − 30) mod 128 = 98. -/
def sysexDetune : Sysex :=
  ⟨0xF0, 0x43, 0, 0, 0x01, 0x1B, fun i => if i = 17 then 30 else 0, 98, 0xF7⟩

/-- An operator with full output level and no velocity sensitivity. -/
def fbOperator : DxOperator := { zeroOperator with output_level := 99 }

/-- A patch with maximum feedback (7) on six `fbOperator`s and no LFO. -/
def fbPatch : Patch := { zeroPatch with feedback := 7, operators := fun _ => fbOperator }

/-- A voice whose operators sit at phase 1/4 (raw sine 1) with settled
envelopes at level 1, unit level scaling, and stored output 0 from the
previous sample. -/
noncomputable def fbVoice : VoiceState :=
  { zeroVoiceState with
    velocity := 1
    operators := fun _ =>
      { zeroOpState with phase := 1/4, env := ⟨2, 1, 0, 1, 0⟩, level_scale := 1 } }

/-- An engine state with one active voice on note 60 and the sustain
pedal held. -/
def sustainedSystem : MidiSystem :=
  { zeroSystem with
    voices := Function.update zeroSystem.voices 0
      { zeroPolyVoice with active := true, midi_note := 60 }
    controllers := { initControllers with sustain_pedal := true } }

/-- The Sysex record a successful `dx7_patch_to_sysex` builds. -/
def encodedSysex (p : Patch) (channel : ℕ) : Sysex :=
  { start_sysex := 0xF0
    manufacturer := 0x43
    sub_status := channel
    format := 0x00
    byte_count_msb := 0x01
    byte_count_lsb := 0x1B
    voice_data := encodeVoiceData p
    checksum := calculate_dx7_checksum (encodeVoiceData p) 155
    end_sysex := 0xF7 }

/-- An operator with the in-range sub-unity frequency ratio 0.75. -/
def cxOperator : DxOperator := { zeroOperator with freq_ratio := 3/4 }

/-- An in-range patch whose operators all have frequency ratio 0.75. -/
def cxPatch : Patch :=
  { zeroPatch with algorithm := 1, operators := fun _ => cxOperator }

/-- A voice SysEx with valid framing and checksum whose 155 voice-data
bytes are all zero (not in the encoder's image: byte 152 is zero). -/
def zeroVdSysex : Sysex :=
  ⟨0xF0, 0x43, 0, 0, 1, 0x1B, fun _ => 0, 0, 0xF7⟩

/-- A canonical voice SysEx: name bytes are ASCII 65, the
operator-enable byte 152 is 0x3F, all other voice bytes zero. -/
def canonSysex : Sysex :=
  ⟨0xF0, 0x43, 0, 0, 1, 0x1B,
    fun i => if i = 152 then 63 else if 142 ≤ i ∧ i < 152 then 65 else 0, 55, 0xF7⟩

/-! ## Theorems -/

/-- Claim C9: `dx7_sysex_to_patch` returns false for every input with
wrong framing (start, end, manufacturer, format or byte count) or a
checksum mismatch, and then leaves the destination patch unmodified. -/
theorem C9_decode_rejects_and_preserves (s : Sysex) (p : Patch)
    (h : s.start_sysex ≠ 0xF0 ∨ s.manufacturer ≠ 0x43 ∨ s.format ≠ 0x00 ∨
      s.byte_count_msb ≠ 0x01 ∨ s.byte_count_lsb ≠ 0x1B ∨ s.end_sysex ≠ 0xF7 ∨
      calculate_dx7_checksum s.voice_data 155 ≠ s.checksum) :
    dx7_sysex_to_patch s p = (false, p) := by
  unfold dx7_sysex_to_patch
  split_ifs with h1 h2
  · rfl
  · rfl
  · tauto

/-- Witness for C9 at a concrete input: a SysEx with a wrong start byte
is rejected and the destination patch is untouched. -/
theorem C9_witness :
    dx7_sysex_to_patch ⟨0, 0x43, 0, 0, 1, 0x1B, fun _ => 0, 0, 0xF7⟩ zeroPatch =
      (false, zeroPatch) :=
  C9_decode_rejects_and_preserves _ _ (Or.inl (by decide))

/-- Claim C10: Control Change 121 zeroes the whole controller struct
and then sets only volume and expression to 1.0: afterwards the dense
128-entry CC array is 0.0 everywhere — including slots 7 and 11, which
hold 1.0 after `midi_input_initialize` — `sustain_pedal` is false, and
no voice is modified (flags and envelopes included). -/
theorem C10_reset_all_controllers (sys : MidiSystem) (channel value sr : ℕ) :
    ((handle_control_change sys channel 121 value sr).controllers =
      { zeroControllers with volume := 1, expression := 1 }) ∧
    (∀ c : Fin 128,
      (handle_control_change sys channel 121 value sr).controllers.controllers c = 0) ∧
    (handle_control_change sys channel 121 value sr).controllers.sustain_pedal = false ∧
    (handle_control_change sys channel 121 value sr).voices = sys.voices ∧
    initControllers.controllers 7 = 1 ∧ initControllers.controllers 11 = 1 := by
  refine ⟨?_, ?_, ?_, ?_, by decide, by decide⟩ <;>
    simp [handle_control_change, zeroControllers]

/-- Claim C7: a Note Off on an active voice with the sustain pedal held
only sets that voice's `sustain_held` flag (no envelope released,
no other voice touched); with the pedal up it puts all six operator
envelopes of that voice into Release; and a sustain pedal release
(CC 64 below 64) puts exactly the active `sustain_held` voices into
Release with their flag cleared, leaving every other voice unchanged. -/
theorem C7_note_off_and_sustain :
    (∀ (sys : MidiSystem) (note ch sr : ℕ) (i : Fin 16),
      find_voice sys note ch = some i →
      sys.controllers.sustain_pedal = true →
      handle_note_off sys ch note sr =
        { sys with voices := Function.update sys.voices i { sys.voices i with sustain_held := true } }) ∧
    (∀ (sys : MidiSystem) (note ch sr : ℕ) (i : Fin 16),
      find_voice sys note ch = some i →
      sys.controllers.sustain_pedal = false →
      (∀ op : Fin 6,
        (((handle_note_off sys ch note sr).voices i).synth_voice.operators op).env.stage = 3) ∧
      ((handle_note_off sys ch note sr).voices i).sustain_held = (sys.voices i).sustain_held ∧
      (∀ j : Fin 16, j ≠ i → (handle_note_off sys ch note sr).voices j = sys.voices j)) ∧
    (∀ (sys : MidiSystem) (ch value sr : ℕ),
      sys.controllers.sustain_pedal = true → value < 64 →
      (∀ i : Fin 16,
        ((sys.voices i).active = true → (sys.voices i).sustain_held = true →
          ((handle_control_change sys ch 64 value sr).voices i).sustain_held = false ∧
          ∀ op : Fin 6,
            (((handle_control_change sys ch 64 value sr).voices i).synth_voice.operators op).env.stage = 3) ∧
        (¬ ((sys.voices i).active = true ∧ (sys.voices i).sustain_held = true) →
          (handle_control_change sys ch 64 value sr).voices i = sys.voices i))) := by
  refine ⟨?_, ?_, ?_⟩
  · intro sys note ch sr i hfind hsus
    unfold handle_note_off
    rw [hfind]
    simp [hsus]
  · intro sys note ch sr i hfind hsus
    unfold handle_note_off
    rw [hfind]
    simp only [hsus]
    refine ⟨?_, ?_, ?_⟩
    · intro op
      simp [releaseAllOps, trigger_release]
    · simp
    · intro j hj
      simp [Function.update_noteq hj]
  · intro sys ch value sr _hheld hval
    have hv : ¬ (value ≥ 64) := by omega
    intro i
    constructor
    · intro hact hheld
      simp [handle_control_change, hv, sustainSweep, hact, hheld, releaseAllOps,
        trigger_release]
    · intro hn
      simp only [handle_control_change]
      simp only [show ¬ ((64 : ℕ) = 1) by decide, show ¬ ((64 : ℕ) = 2) by decide,
        show ¬ ((64 : ℕ) = 4) by decide, show ¬ ((64 : ℕ) = 7) by decide,
        show ¬ ((64 : ℕ) = 11) by decide, show ¬ ((64 : ℕ) = 10) by decide,
        if_false, if_true]
      simp [hv, sustainSweep]
      intro hact hheld
      exact absurd ⟨hact, hheld⟩ hn

/-- Witness for C7 at a concrete state: one active voice on note 60
with the pedal held is flagged (and nothing else changes) by Note Off. -/
theorem C7_witness :
    handle_note_off sustainedSystem 0 60 48000 =
      { sustainedSystem with voices := Function.update sustainedSystem.voices 0 { sustainedSystem.voices 0 with sustain_held := true } } :=
  C7_note_off_and_sustain.1 sustainedSystem 60 0 48000 0 (by decide) (by decide)

/-- A `find?` hits the first index whose predicate holds. -/
theorem find?_eq_some_at {α : Type} (p : α → Bool) :
    ∀ (l : List α) (n : ℕ) (h : n < l.length),
      (∀ m (hm : m < n), p (l.get ⟨m, lt_trans hm h⟩) = false) →
      p (l.get ⟨n, h⟩) = true →
      l.find? p = some (l.get ⟨n, h⟩) := by
  intro l
  induction l with
  | nil => intro n h; exact absurd h (by simp)
  | cons a t ih =>
    intro n h hlt hn
    match n with
    | 0 => exact List.find?_cons_of_pos _ hn
    | n + 1 =>
      have ha : p a = false := hlt 0 (Nat.succ_pos n)
      rw [List.find?_cons_of_neg _ (by simp [ha])]
      exact ih n (by simpa using h) (fun m hm => hlt (m + 1) (by omega)) hn

/-- The oldest-slot fold of `allocate_voice` returns a pair whose time
is its slot's time, at most the seed's time, and at most every visited
slot's time. -/
theorem oldest_fold_min (sys : MidiSystem) :
    ∀ (l : List (Fin 16)) (acc : Fin 16 × ℕ),
      acc.2 = (sys.voices acc.1).note_on_time →
      (l.foldl (fun (acc : Fin 16 × ℕ) i =>
          if (sys.voices i).note_on_time < acc.2 then (i, (sys.voices i).note_on_time)
          else acc) acc).2 =
        (sys.voices (l.foldl (fun (acc : Fin 16 × ℕ) i =>
          if (sys.voices i).note_on_time < acc.2 then (i, (sys.voices i).note_on_time)
          else acc) acc).1).note_on_time ∧
      (l.foldl (fun (acc : Fin 16 × ℕ) i =>
          if (sys.voices i).note_on_time < acc.2 then (i, (sys.voices i).note_on_time)
          else acc) acc).2 ≤ acc.2 ∧
      ∀ j ∈ l,
        (l.foldl (fun (acc : Fin 16 × ℕ) i =>
          if (sys.voices i).note_on_time < acc.2 then (i, (sys.voices i).note_on_time)
          else acc) acc).2 ≤ (sys.voices j).note_on_time := by
  intro l
  induction l with
  | nil => intro acc h; exact ⟨h, le_refl _, by simp⟩
  | cons a t ih =>
    intro acc h
    simp only [List.foldl_cons]
    by_cases hc : (sys.voices a).note_on_time < acc.2
    · have hstep := ih (a, (sys.voices a).note_on_time) rfl
      rw [if_pos hc]
      refine ⟨hstep.1, le_trans hstep.2.1 (le_of_lt hc), ?_⟩
      intro j hj
      rcases List.mem_cons.1 hj with rfl | hj
      · exact hstep.2.1
      · exact hstep.2.2 j hj
    · have hstep := ih acc h
      rw [if_neg hc]
      refine ⟨hstep.1, hstep.2.1, ?_⟩
      intro j hj
      rcases List.mem_cons.1 hj with rfl | hj
      · exact le_trans hstep.2.1 (by omega)
      · exact hstep.2.2 j hj

/-- Every nonzero slot index is visited by the steal scan. -/
theorem mem_drop_one_finRange : ∀ j : Fin 16, j ≠ 0 → j ∈ (List.finRange 16).drop 1 := by
  decide

/-- The steal scan picks a slot of minimal `note_on_time`. -/
theorem oldestSlot_min (sys : MidiSystem) :
    (oldestSlot sys).2 = (sys.voices (oldestSlot sys).1).note_on_time ∧
    ∀ j : Fin 16, (oldestSlot sys).2 ≤ (sys.voices j).note_on_time := by
  unfold oldestSlot
  have hmin := oldest_fold_min sys ((List.finRange 16).drop 1)
    (0, (sys.voices 0).note_on_time) rfl
  refine ⟨hmin.1, ?_⟩
  intro j
  by_cases hj : j = 0
  · subst hj; exact hmin.2.1
  · exact hmin.2.2 j (mem_drop_one_finRange j hj)

/-- With no free slot, `allocate_voice` re-initialises and returns the
oldest slot. -/
theorem allocate_voice_none (sys : MidiSystem) (note vel ch now sr : ℕ)
    (h : firstInactive sys = none) :
    allocate_voice sys note vel ch now sr =
      ((oldestSlot sys).1.val,
       { sys with
         voices := Function.update sys.voices (oldestSlot sys).1
           (initPolyVoice sys.current_patch note vel ch now sr)
         voice_steals := sys.voice_steals + 1 }) := by
  unfold allocate_voice
  rw [h]

/-- With a free slot found, `allocate_voice` re-initialises and returns
that slot. -/
theorem allocate_voice_some (sys : MidiSystem) (note vel ch now sr : ℕ) (i : Fin 16)
    (h : firstInactive sys = some i) :
    allocate_voice sys note vel ch now sr =
      (i.val,
       { sys with
         voices := Function.update sys.voices i
           (initPolyVoice sys.current_patch note vel ch now sr)
         voice_count := sys.voice_count + 1 }) := by
  unfold allocate_voice
  rw [h]

set_option maxHeartbeats 2000000 in
/-- Claim C3: `allocate_voice` never fails.  With an inactive slot it
returns the lowest-indexed inactive slot, fully re-initialised; with a
full pool it re-initialises and returns a slot of minimal
`note_on_time`; an all-inactive pool yields slot 0.  A re-initialised
slot has phases zeroed, envelopes in Attack at level 0, `note_on_time`
freshly stamped and `sustain_held` cleared. -/
theorem C3_allocate_voice (sys : MidiSystem) (note vel ch now sr : ℕ) :
    ((allocate_voice sys note vel ch now sr).1 < 16) ∧
    (∀ i : Fin 16, (sys.voices i).active = false →
      (∀ j : Fin 16, j < i → (sys.voices j).active = true) →
      (allocate_voice sys note vel ch now sr).1 = i.val ∧
      (allocate_voice sys note vel ch now sr).2.voices i =
        initPolyVoice sys.current_patch note vel ch now sr ∧
      (∀ j : Fin 16, j ≠ i →
        (allocate_voice sys note vel ch now sr).2.voices j = sys.voices j)) ∧
    ((∀ j : Fin 16, (sys.voices j).active = true) →
      ∃ islot : Fin 16,
        (allocate_voice sys note vel ch now sr).1 = islot.val ∧
        (∀ j : Fin 16,
          (sys.voices islot).note_on_time ≤ (sys.voices j).note_on_time) ∧
        (allocate_voice sys note vel ch now sr).2.voices islot =
          initPolyVoice sys.current_patch note vel ch now sr ∧
        (∀ j : Fin 16, j ≠ islot →
          (allocate_voice sys note vel ch now sr).2.voices j = sys.voices j)) ∧
    ((∀ j : Fin 16, (sys.voices j).active = false) →
      (allocate_voice sys note vel ch now sr).1 = 0) ∧
    (∀ (p : Patch),
      (initPolyVoice p note vel ch now sr).active = true ∧
      (initPolyVoice p note vel ch now sr).sustain_held = false ∧
      (initPolyVoice p note vel ch now sr).note_on_time = now ∧
      (initPolyVoice p note vel ch now sr).midi_note = note ∧
      ∀ op : Fin 6,
        ((initPolyVoice p note vel ch now sr).synth_voice.operators op).phase = 0 ∧
        ((initPolyVoice p note vel ch now sr).synth_voice.operators op).env.stage = 0 ∧
        ((initPolyVoice p note vel ch now sr).synth_voice.operators op).env.level = 0) := by
  have key : ∀ i : Fin 16, (sys.voices i).active = false →
      (∀ j : Fin 16, j < i → (sys.voices j).active = true) →
      firstInactive sys = some i := by
    intro i hi hlt
    have him : i.val < 16 := i.isLt
    have h16 : i.val < (List.finRange 16).length := by
      rw [List.length_finRange]; exact him
    have hmain := find?_eq_some_at (fun i => !(sys.voices i).active)
      (List.finRange 16) i.val h16
      (fun m hm => by
        rw [List.get_finRange]
        have hmlt : (⟨m, by omega⟩ : Fin 16) < i := by
          simp only [Fin.lt_def]; exact hm
        simp [hlt ⟨m, by omega⟩ hmlt])
      (by rw [List.get_finRange]; simp [hi])
    unfold firstInactive
    rw [hmain, List.get_finRange]
  refine ⟨?_, ?_, ?_, ?_, ?_⟩
  case _ =>
    cases hf : firstInactive sys with
    | some i => rw [allocate_voice_some sys note vel ch now sr i hf]; exact i.isLt
    | none => rw [allocate_voice_none sys note vel ch now sr hf]; exact (oldestSlot sys).1.isLt
  case _ =>
    intro i hi hlt
    rw [allocate_voice_some sys note vel ch now sr i (key i hi hlt)]
    exact ⟨rfl, by simp, fun j hj => by simp [Function.update_noteq hj]⟩
  case _ =>
    intro hall
    have hfind : firstInactive sys = none := by
      unfold firstInactive
      rw [List.find?_eq_none]
      intro x _
      simp [hall x]
    rw [allocate_voice_none sys note vel ch now sr hfind]
    have hmin := oldestSlot_min sys
    refine ⟨(oldestSlot sys).1, rfl, ?_, by simp, fun j hj => by simp [Function.update_noteq hj]⟩
    intro j
    rw [← hmin.1]
    exact hmin.2 j
  case _ =>
    intro hall
    rw [allocate_voice_some sys note vel ch now sr 0
      (key 0 (hall 0) (fun j hj => absurd (Fin.lt_def.mp hj) (by omega)))]
    rfl
  case _ =>
    intro p
    exact ⟨rfl, rfl, rfl, rfl, fun op => ⟨rfl, rfl, rfl⟩⟩

/-- Witness for C3: allocating into the all-inactive pool of
`zeroSystem` returns slot 0. -/
theorem C3_witness :
    (allocate_voice zeroSystem 60 100 0 1234 48000).1 = 0 :=
  (C3_allocate_voice zeroSystem 60 100 0 1234 48000).2.2.2.1
    (by decide : ∀ j : Fin 16, (zeroSystem.voices j).active = false)


/-- `parseBytes` splits over list concatenation, threading the parser
state and appending the emitted messages. -/
theorem parseBytes_append (ps : MidiParser) (xs ys : List ℕ) :
    parseBytes ps (xs ++ ys) =
      ((parseBytes (parseBytes ps xs).1 ys).1,
       (parseBytes ps xs).2 ++ (parseBytes (parseBytes ps xs).1 ys).2) := by
  induction xs generalizing ps with
  | nil => simp [parseBytes]
  | cons b t ih => simp [parseBytes, ih]

/-- Feeding one complete valid channel-voice message to the parser from
any non-SysEx state emits exactly that message and leaves no pending
data bytes. -/
theorem parse_one_message (ps : MidiParser) (h : ps.in_sysex = false)
    (s d1 d2 : ℕ) (hs1 : 0x80 ≤ s) (hs2 : s < 0xF0) (hd1 : d1 < 128) (hd2 : d2 < 128) :
    (parseBytes ps (messageBytes s d1 d2)).2 =
      [(s, d1, if statusDataCount s = 1 then 0 else d2)] ∧
    (parseBytes ps (messageBytes s d1 d2)).1.data_bytes_received = 0 ∧
    (parseBytes ps (messageBytes s d1 d2)).1.in_sysex = false := by
  have hsF0 : ¬ (s = 0xF0) := by omega
  have hsF7 : ¬ (s = 0xF7) := by omega
  have hsF8 : ¬ (s ≥ 0xF8) := by omega
  have hs0 : ¬ (s = 0) := by omega
  have hd1' : ¬ (d1 ≥ 0x80) := by omega
  have hd2' : ¬ (d2 ≥ 0x80) := by omega
  by_cases hcond : (s / 16 * 16 = 0xC0 ∨ s / 16 * 16 = 0xD0)
  · have hc : statusDataCount s = 1 := by simp [statusDataCount, hcond]
    rw [messageBytes, if_pos hc, hc]
    simp [parseBytes, midi_parse_byte, hs1, hsF0, hsF7, hsF8, hs0, hd1', h, hcond,
      Function.update]
  · have hc : statusDataCount s = 2 := by simp [statusDataCount, hcond]
    rw [messageBytes, if_neg (by rw [hc]; omega), hc]
    simp [parseBytes, midi_parse_byte, hs1, hsF0, hsF7, hsF8, hs0, hd1', hd2', h, hcond,
      Function.update]

/-- Claim C8: fed `90 3C 40 3E 40 80 3C 00`, the parser dispatches
exactly Note On 60 vel 64, Note On 62 vel 64 (running status) and
Note Off 60, in order; and the concatenation of any two complete valid
channel-voice messages dispatches both messages in order and leaves no
pending data bytes. -/
theorem C8_running_status :
    ((parseBytes initParser [0x90, 0x3C, 0x40, 0x3E, 0x40, 0x80, 0x3C, 0x00]).2 =
      [(0x90, 0x3C, 0x40), (0x90, 0x3E, 0x40), (0x80, 0x3C, 0x00)] ∧
     (parseBytes initParser [0x90, 0x3C, 0x40, 0x3E, 0x40, 0x80, 0x3C, 0x00]).1.data_bytes_received = 0) ∧
    (∀ s d1 d2 s' e1 e2 : ℕ,
      0x80 ≤ s → s < 0xF0 → 0x80 ≤ s' → s' < 0xF0 →
      d1 < 128 → d2 < 128 → e1 < 128 → e2 < 128 →
      (parseBytes initParser (messageBytes s d1 d2 ++ messageBytes s' e1 e2)).2 =
        [(s, d1, if statusDataCount s = 1 then 0 else d2),
         (s', e1, if statusDataCount s' = 1 then 0 else e2)] ∧
      (parseBytes initParser (messageBytes s d1 d2 ++ messageBytes s' e1 e2)).1.data_bytes_received = 0) := by
  constructor
  · exact ⟨by decide, by decide⟩
  · intro s d1 d2 s' e1 e2 hs1 hs2 hs1' hs2' hd1 hd2 he1 he2
    have h1 := parse_one_message initParser rfl s d1 d2 hs1 hs2 hd1 hd2
    have h2 := parse_one_message (parseBytes initParser (messageBytes s d1 d2)).1
      h1.2.2 s' e1 e2 hs1' hs2' he1 he2
    rw [parseBytes_append, h1.1, h2.1]
    exact ⟨rfl, h2.2.1⟩

/-- Witness for C8's general part: two concrete messages (Note On then
Note Off) are dispatched in order and leave no pending bytes. -/
theorem C8_witness :
    (parseBytes initParser (messageBytes 0x90 60 64 ++ messageBytes 0x80 60 0)).2 =
      [(0x90, 60, 64), (0x80, 60, 0)] ∧
    (parseBytes initParser (messageBytes 0x90 60 64 ++ messageBytes 0x80 60 0)).1.data_bytes_received = 0 := by
  have h := C8_running_status.2 0x90 60 64 0x80 60 0 (by decide) (by decide) (by decide)
    (by decide) (by decide) (by decide) (by decide) (by decide)
  simpa using h

/-- Claim C2 counterexample: the claim "every envelope level stays in
[0, 1] … including Release entered from any level via
`trigger_release`, and every phase stays in [0, 1) … for any operator
frequency" is false on the code.  Entering Release at level 0 with a
release target of 99 at rate 99 drives the level above 1 within 20
samples (Release has no upper clamp), and an operator frequency of
96000 Hz at a 48 kHz sample rate leaves the phase at 1 after the
single-subtraction wrap. -/
theorem C2_counterexample :
    (((fun e => update_envelope e releaseRiseOp 0 48000)^[20]
        (trigger_release ⟨2, 0, 0, 0, 0⟩ releaseRiseOp 0 48000)).level > 1 ∧
      ((fun e => update_envelope e releaseRiseOp 0 48000)^[20]
        (trigger_release ⟨2, 0, 0, 0, 0⟩ releaseRiseOp 0 48000)).stage = 3) ∧
    ¬ (opPhaseNext phaseOverflowVoice zeroPatch false 0 48000 0 < 1) := by
  have hrel : trigger_release ⟨2, 0, 0, 0, 0⟩ releaseRiseOp 0 48000 =
      ⟨3, 0, 5/96, 1, 0⟩ := by
    simp only [trigger_release, releaseRiseOp, zeroOperator, cTrunc,
      dx7_envelope_rate_to_time]
    norm_num [show ((3 : Fin 4)).val = 3 from rfl]
  have hstep : ∀ (l : ℚ) (k : ℕ), 0 ≤ l →
      update_envelope ⟨3, l, 5/96, 1, k⟩ releaseRiseOp 0 48000 =
        ⟨3, l + 5/96, 5/96, 1, k + 1⟩ := by
    intro l k hl
    simp only [update_envelope]
    rw [if_neg (by linarith)]
  have hiter : ∀ n : ℕ,
      (fun e => update_envelope e releaseRiseOp 0 48000)^[n] ⟨3, 0, 5/96, 1, 0⟩ =
        ⟨3, n * (5/96), 5/96, 1, n⟩ := by
    intro n
    induction n with
    | zero => simp
    | succ m ih =>
      rw [Function.iterate_succ_apply', ih, hstep (m * (5/96)) m (by positivity)]
      have : (m : ℚ) * (5/96) + 5/96 = ((m : ℚ) + 1) * (5/96) := by ring
      rw [this]
      push_cast
      rfl
  refine ⟨?_, ?_⟩
  · rw [hrel, hiter 20]
    norm_num
  · have hfreq : (phaseOverflowVoice.operators 0).freq = 96000 := rfl
    have hphase : (phaseOverflowVoice.operators 0).phase = 0 := rfl
    have hpmd : ¬ ((zeroPatch.lfo_pmd : ℤ) > 0) := by decide
    unfold opPhaseNext
    rw [if_neg hpmd, hfreq, hphase]
    norm_num

/-- Claim C2 (amended): `update_envelope` keeps the level in [0, 1] in
Attack (nonnegative rate), Decay1 and Decay2 (nonpositive rate) given
an in-range target; in Release the level is only clamped below at 0 and
can exceed 1.  The phase advance stays in [0, 1) provided the
(unmodulated) operator frequency is nonnegative and below the sample
rate. -/
theorem C2_amended_level_phase_bounds :
    (∀ (env : EnvState) (op : DxOperator) (rs : ℚ) (sr : ℕ),
      env.stage = 0 → 0 ≤ env.level → env.level ≤ 1 → 0 ≤ env.rate →
      0 ≤ env.target → env.target ≤ 1 →
      0 ≤ (update_envelope env op rs sr).level ∧ (update_envelope env op rs sr).level ≤ 1) ∧
    (∀ (env : EnvState) (op : DxOperator) (rs : ℚ) (sr : ℕ),
      env.stage = 1 → 0 ≤ env.level → env.level ≤ 1 → env.rate ≤ 0 →
      0 ≤ env.target → env.target ≤ 1 →
      0 ≤ (update_envelope env op rs sr).level ∧ (update_envelope env op rs sr).level ≤ 1) ∧
    (∀ (env : EnvState) (op : DxOperator) (rs : ℚ) (sr : ℕ),
      env.stage = 2 → 0 ≤ env.level → env.level ≤ 1 → env.rate ≤ 0 →
      0 ≤ env.target →
      0 ≤ (update_envelope env op rs sr).level ∧ (update_envelope env op rs sr).level ≤ 1) ∧
    (∀ (env : EnvState) (op : DxOperator) (rs : ℚ) (sr : ℕ),
      env.stage = 3 → 0 ≤ env.level →
      0 ≤ (update_envelope env op rs sr).level) ∧
    (∀ (v : VoiceState) (p : Patch) (play : Bool) (mw : ℝ) (sr : ℕ) (i : Fin 6),
      0 ≤ (v.operators i).phase → (v.operators i).phase < 1 →
      0 ≤ (v.operators i).freq → (v.operators i).freq < (sr : ℝ) →
      ¬ (p.lfo_pmd > 0) →
      0 ≤ opPhaseNext v p play mw sr i ∧ opPhaseNext v p play mw sr i < 1) := by
  refine ⟨?_, ?_, ?_, ?_, ?_⟩
  · intro env op rs sr hst h0 h1 hr ht0 ht1
    simp only [update_envelope, hst]
    by_cases hb : env.level ≥ env.target ∨ op.env_rates 0 ≥ 99
    · rw [if_pos hb]
      exact ⟨ht0, ht1⟩
    · rw [if_neg hb]
      push_neg at hb
      split_ifs with hgt
      · exact ⟨ht0, ht1⟩
      · exact ⟨(by linarith : (0 : ℚ) ≤ env.level + env.rate),
          (by linarith : env.level + env.rate ≤ (1 : ℚ))⟩
  · intro env op rs sr hst h0 h1 hr ht0 ht1
    simp only [update_envelope, hst]
    by_cases hb : env.level ≤ env.target ∨ op.env_rates 1 ≥ 99
    · rw [if_pos hb]
      exact ⟨ht0, ht1⟩
    · rw [if_neg hb]
      push_neg at hb
      split_ifs with hlt
      · exact ⟨ht0, ht1⟩
      · exact ⟨(by linarith : (0 : ℚ) ≤ env.level + env.rate),
          (by linarith : env.level + env.rate ≤ (1 : ℚ))⟩
  · intro env op rs sr hst h0 h1 hr ht0
    simp only [update_envelope, hst]
    by_cases hb : env.level > env.target
    · rw [if_pos hb]
      split_ifs with hlt
      · exact ⟨ht0, (by linarith : env.target ≤ (1 : ℚ))⟩
      · exact ⟨(by linarith : (0 : ℚ) ≤ env.level + env.rate),
          (by linarith : env.level + env.rate ≤ (1 : ℚ))⟩
    · rw [if_neg hb]
      exact ⟨h0, h1⟩
  · intro env op rs sr hst h0
    simp only [update_envelope, hst]
    split_ifs with hlt
    · exact le_refl 0
    · exact (by linarith : (0 : ℚ) ≤ env.level + env.rate)
  · intro v p play mw sr i hp0 hp1 hf0 hf1 hpmd
    have hsr : (0 : ℝ) < (sr : ℝ) := lt_of_le_of_lt hf0 hf1
    unfold opPhaseNext
    rw [if_neg hpmd]
    have hdiv0 : 0 ≤ (v.operators i).freq / (sr : ℝ) := div_nonneg hf0 (le_of_lt hsr)
    have hdiv1 : (v.operators i).freq / (sr : ℝ) < 1 := (div_lt_one hsr).mpr hf1
    dsimp only
    split_ifs with hge
    · exact ⟨by linarith, by linarith⟩
    · exact ⟨by linarith, by linarith⟩

/-- Witness for C2 (amended) at concrete inputs: one Attack step of the
all-zero envelope stays in [0, 1], and the phase advance of the zero
voice (frequency 0) stays in [0, 1). -/
theorem C2_witness :
    (0 ≤ (update_envelope ⟨0, 0, 0, 0, 0⟩ zeroOperator 0 48000).level ∧
      (update_envelope ⟨0, 0, 0, 0, 0⟩ zeroOperator 0 48000).level ≤ 1) ∧
    (0 ≤ opPhaseNext zeroVoiceState zeroPatch false 0 48000 0 ∧
      opPhaseNext zeroVoiceState zeroPatch false 0 48000 0 < 1) := by
  constructor
  · exact C2_amended_level_phase_bounds.1 ⟨0, 0, 0, 0, 0⟩ zeroOperator 0 48000
      rfl (le_refl 0) zero_le_one (le_refl 0) (le_refl 0) zero_le_one
  · exact C2_amended_level_phase_bounds.2.2.2.2 zeroVoiceState zeroPatch false 0 48000 0
      (le_refl 0) zero_lt_one (le_refl 0)
      (Nat.cast_pos.mpr (by decide)) (by decide)

/-- The six operator indices as an explicit list. -/
theorem finRange6 : (List.finRange 6) = [0, 1, 2, 3, 4, 5] := by decide

/-- An all-zero modulation matrix leaves `processed` untouched. -/
theorem algMatrixSweep_zero (a : AlgorithmDef)
    (h : ∀ m c : Fin 6, matEntry a m.val c.val = 0)
    (lvls processed : Fin 6 → ℝ) :
    algMatrixSweep a lvls processed = processed := by
  unfold algMatrixSweep
  rw [finRange6]
  simp [h]

/-- Zero feedback skips the feedback rewrite entirely. -/
theorem algFeedbackStep_zero (processed : Fin 6 → ℝ) :
    algFeedbackStep processed 0 = processed := by
  simp [algFeedbackStep]

/-- Nonzero feedback rewrites `processed[0]` through the sine. -/
theorem algFeedbackStep_ne (processed : Fin 6 → ℝ) (fb : ℝ) (h : fb ≠ 0) :
    algFeedbackStep processed fb =
      Function.update processed 0 (Real.sin (2 * Real.pi * processed 0 + fb)) := by
  simp [algFeedbackStep, h]

/-- Claim C4 counterexample: the claim — the router applies
`scaled[0] = sin(2π·scaled[0] + feedback_value)` for EVERY value of
`feedback_value`, with `feedback_value` computed from the PREVIOUS
sample's stored operator-0 output — is false on the code.  At
`feedback_val = 0` the router skips the transformation (algorithm 25,
`scaled[0] = 1/4`: the code yields `(1/4)/√6` where the claimed
transformation yields `sin(π/2)/√6 = 1/√6`); and `process_operators`
computes the feedback value from operator 0's output stored THIS
sample (0.1 at `fbVoice`/`fbPatch`), not from the stored
previous-sample output (which gives 0). -/
theorem C4_counterexample :
    process_algorithm (fun _ => 1) (fun i => if i.val = 0 then (1/4 : ℝ) else 0) 25 0 ≠
      process_algorithm_spec (fun _ => 1) (fun i => if i.val = 0 then (1/4 : ℝ) else 0) 25 0 ∧
    processOperatorsFeedback fbVoice fbPatch false 0 48000 ≠
      processOperatorsFeedbackSpec fbVoice fbPatch := by
  have halg : ¬ ((25 : ℤ) < 1 ∨ (25 : ℤ) > 32) := by decide
  have hcar : (algorithms.getD (25 : ℤ).toNat ⟨[], 0, []⟩).carriers = [1, 2, 3, 4, 5, 6] := by
    decide
  have hnum : (algorithms.getD (25 : ℤ).toNat ⟨[], 0, []⟩).num_carriers = 6 := by decide
  have h1 : process_algorithm (fun _ => 1) (fun i => if i.val = 0 then (1/4 : ℝ) else 0) 25 0 =
      (1/4 : ℝ) / Real.sqrt 6 := by
    unfold process_algorithm
    rw [if_neg halg]
    dsimp only
    rw [algFeedbackStep_zero, algMatrixSweep_zero _ (by decide) _ _]
    unfold algCarrierSum
    rw [hcar, hnum]
    simp only [List.take, List.foldl]
    norm_num
  have h2 : process_algorithm_spec (fun _ => 1)
      (fun i => if i.val = 0 then (1/4 : ℝ) else 0) 25 0 = 1 / Real.sqrt 6 := by
    unfold process_algorithm_spec
    rw [if_neg halg]
    dsimp only
    unfold algFeedbackStepSpec
    rw [algMatrixSweep_zero _ (by decide) _ _]
    unfold algCarrierSum
    rw [hcar, hnum]
    simp only [List.take, List.foldl]
    simp only [Function.update]
    norm_num [Fin.ext_iff]
    have harg : 2 * Real.pi * (1/4 : ℝ) = Real.pi / 2 := by ring
    rw [harg, Real.sin_pi_div_two]
    norm_num [Real.sqrt_eq_zero]
  have h3 : processOperatorsFeedback fbVoice fbPatch false 0 48000 = 0.1 := by
    have henv : (opEnvNext fbVoice fbPatch 48000 0).level = 1 := by
      simp [opEnvNext, update_envelope, fbVoice, fbPatch, fbOperator, zeroOpState,
        zeroOperator]
    unfold processOperatorsFeedback stepOperator
    dsimp only
    unfold opRawOutput opTotalLevel
    rw [henv]
    simp [fbVoice, fbPatch, fbOperator, zeroOperator, zeroPatch, zeroOpState, zeroVoiceState]
    have harg : 2 * Real.pi * (4⁻¹ : ℝ) = Real.pi / 2 := by ring
    rw [harg, Real.sin_pi_div_two]
    norm_num
  have h4 : processOperatorsFeedbackSpec fbVoice fbPatch = 0 := by
    simp [processOperatorsFeedbackSpec, fbVoice, fbPatch, zeroOpState]
  constructor
  · rw [h1, h2]
    have h6 : Real.sqrt 6 ≠ 0 := by positivity
    intro h
    rw [div_eq_mul_inv, div_eq_mul_inv] at h
    have := mul_right_cancel₀ (inv_ne_zero h6) h
    norm_num at this
  · rw [h3, h4]
    norm_num

/-- Claim C4 (amended): the algorithm router applies the feedback
rewrite `scaled[0] := sin(2π·scaled[0] + feedback_value)` only when
`feedback_value ≠ 0` (zero feedback leaves `scaled[0]` unchanged, so
the spec formula holds exactly for nonzero feedback values), and the
feedback value is operator 0's level-scaled output of the CURRENT
sample — the value the operator loop just stored — times
`feedback/7 · 0.1`. -/
theorem C4_amended_feedback :
    (∀ (processed : Fin 6 → ℝ) (fb : ℝ),
      (fb ≠ 0 → algFeedbackStep processed fb =
        Function.update processed 0 (Real.sin (2 * Real.pi * processed 0 + fb))) ∧
      algFeedbackStep processed 0 = processed) ∧
    (∀ (outs lvls : Fin 6 → ℝ) (alg : ℤ) (fb : ℝ), fb ≠ 0 →
      process_algorithm outs lvls alg fb = process_algorithm_spec outs lvls alg fb) ∧
    (∀ (v : VoiceState) (p : Patch) (play : Bool) (mw : ℝ) (sr : ℕ),
      processOperatorsFeedback v p play mw sr =
        (stepOperator v p play mw sr 0).output * (p.feedback : ℝ) / 7 * 0.1 ∧
      ((process_operators v p play mw sr).2.operators 0).output =
        (stepOperator v p play mw sr 0).output ∧
      (process_operators v p play mw sr).1 =
        process_algorithm (fun i => opRawOutput v i)
          (fun i => opTotalLevel v p play mw sr i) p.algorithm
          (processOperatorsFeedback v p play mw sr)) := by
  refine ⟨?_, ?_, ?_⟩
  · intro processed fb
    exact ⟨fun h => algFeedbackStep_ne processed fb h, algFeedbackStep_zero processed⟩
  · intro outs lvls alg fb h
    unfold process_algorithm process_algorithm_spec
    dsimp only
    rw [algFeedbackStep_ne _ _ h]
    unfold algFeedbackStepSpec
    rfl
  · intro v p play mw sr
    exact ⟨rfl, rfl, rfl⟩

/-- Witness for C4 (amended) at a concrete input: with feedback value 1
the router agrees with the spec's unconditional formula. -/
theorem C4_witness :
    process_algorithm (fun _ => 0) (fun _ => 0) 1 1 =
      process_algorithm_spec (fun _ => 0) (fun _ => 0) 1 1 :=
  C4_amended_feedback.2.1 (fun _ => 0) (fun _ => 0) 1 1 one_ne_zero

set_option maxRecDepth 10000 in
/-- Claim C6 counterexample: the claim "after every successful decode
every integer field lies within its declared range (e.g. detune in
−7..+7)" is false: decoding a valid SysEx whose operator byte 17
carries detune code 15 yields `detune = 8`, outside −7..+7. -/
theorem C6_counterexample :
    (dx7_sysex_to_patch sysexDetune zeroPatch).1 = true ∧
    ((dx7_sysex_to_patch sysexDetune zeroPatch).2.operators 5).detune = 8 ∧
    ¬ (-7 ≤ ((dx7_sysex_to_patch sysexDetune zeroPatch).2.operators 5).detune ∧
        ((dx7_sysex_to_patch sysexDetune zeroPatch).2.operators 5).detune ≤ 7) := by
  refine ⟨by decide, by decide, ?_⟩
  intro h
  have h8 : ((dx7_sysex_to_patch sysexDetune zeroPatch).2.operators 5).detune = 8 := by decide
  rw [h8] at h
  omega

/-- Claim C6 (amended): a successful decode coerces the bit-packed
fields into (sometimes slightly wider) ranges — algorithm 1..32,
feedback 0..7, curves 0..3, rate scaling and velocity sensitivity 0..7,
osc sync 0..1, LFO sync 0..1, LFO wave 0..7, pitch-mod sensitivity
0..7, detune −7..+8, transpose −24..+39 — while full-byte fields are
copied without clamping; an algorithm outside 1..32 is coerced to 1 at
use time, in `process_algorithm`. -/
theorem C6_amended_decode_bounds :
    (∀ (s : Sysex) (p : Patch), (dx7_sysex_to_patch s p).1 = true →
      (1 ≤ (dx7_sysex_to_patch s p).2.algorithm ∧
        (dx7_sysex_to_patch s p).2.algorithm ≤ 32) ∧
      (0 ≤ (dx7_sysex_to_patch s p).2.feedback ∧
        (dx7_sysex_to_patch s p).2.feedback ≤ 7) ∧
      (0 ≤ (dx7_sysex_to_patch s p).2.lfo_sync ∧
        (dx7_sysex_to_patch s p).2.lfo_sync ≤ 1) ∧
      (0 ≤ (dx7_sysex_to_patch s p).2.lfo_wave ∧
        (dx7_sysex_to_patch s p).2.lfo_wave ≤ 7) ∧
      (0 ≤ (dx7_sysex_to_patch s p).2.lfo_pitch_mod_sens ∧
        (dx7_sysex_to_patch s p).2.lfo_pitch_mod_sens ≤ 7) ∧
      (-24 ≤ (dx7_sysex_to_patch s p).2.transpose ∧
        (dx7_sysex_to_patch s p).2.transpose ≤ 39) ∧
      (∀ j : Fin 6,
        (0 ≤ ((dx7_sysex_to_patch s p).2.operators j).key_level_scale_left_curve ∧
          ((dx7_sysex_to_patch s p).2.operators j).key_level_scale_left_curve ≤ 3) ∧
        (0 ≤ ((dx7_sysex_to_patch s p).2.operators j).key_level_scale_right_curve ∧
          ((dx7_sysex_to_patch s p).2.operators j).key_level_scale_right_curve ≤ 3) ∧
        (0 ≤ ((dx7_sysex_to_patch s p).2.operators j).key_rate_scaling ∧
          ((dx7_sysex_to_patch s p).2.operators j).key_rate_scaling ≤ 7) ∧
        (0 ≤ ((dx7_sysex_to_patch s p).2.operators j).key_vel_sens ∧
          ((dx7_sysex_to_patch s p).2.operators j).key_vel_sens ≤ 7) ∧
        (0 ≤ ((dx7_sysex_to_patch s p).2.operators j).osc_sync ∧
          ((dx7_sysex_to_patch s p).2.operators j).osc_sync ≤ 1) ∧
        (-7 ≤ ((dx7_sysex_to_patch s p).2.operators j).detune ∧
          ((dx7_sysex_to_patch s p).2.operators j).detune ≤ 8))) ∧
    (∀ (outs lvls : Fin 6 → ℝ) (alg : ℤ) (fb : ℝ), (alg < 1 ∨ alg > 32) →
      process_algorithm outs lvls alg fb = process_algorithm outs lvls 1 fb) := by
  constructor
  · intro s p hs
    have hdec : (dx7_sysex_to_patch s p).2 = decodedPatch s := by
      unfold dx7_sysex_to_patch at hs ⊢
      split_ifs at hs ⊢ with h1 h2
      rfl
    rw [hdec]
    unfold decodedPatch decodeOp
    refine ⟨?_, ?_, ?_, ?_, ?_, ?_, ?_⟩
    · constructor <;> · dsimp only; omega
    · constructor <;> · dsimp only; omega
    · constructor <;> · dsimp only; omega
    · constructor <;> · dsimp only; omega
    · constructor <;> · dsimp only; omega
    · constructor <;> · dsimp only; omega
    · intro j
      refine ⟨⟨?_, ?_⟩, ⟨?_, ?_⟩, ⟨?_, ?_⟩, ⟨?_, ?_⟩, ⟨?_, ?_⟩, ⟨?_, ?_⟩⟩ <;>
        · dsimp only; omega
  · intro outs lvls alg fb h
    unfold process_algorithm
    rw [if_pos h, if_neg (by decide : ¬ ((1 : ℤ) < 1 ∨ (1 : ℤ) > 32))]

set_option maxRecDepth 10000 in
/-- Witness for C6 (amended): the decode of `sysexDetune` succeeds and
its algorithm lands in 1..32. -/
theorem C6_witness :
    1 ≤ (dx7_sysex_to_patch sysexDetune zeroPatch).2.algorithm ∧
      (dx7_sysex_to_patch sysexDetune zeroPatch).2.algorithm ≤ 32 :=
  (C6_amended_decode_bounds.1 sysexDetune zeroPatch (by decide)).1

/-! ## Codec round-trip helpers (C1, C5) -/

/-- The encoder's byte at an operator-block index reads operator `5 - q`. -/
theorem encodeVoiceData_op (p : Patch) (q off : ℕ) (hq : q < 6) (hoff : off < 21) :
    encodeVoiceData p (q * 21 + off) = encodeOpByte (p.operators ⟨5 - q, by omega⟩) off := by
  have hlt : q * 21 + off < 126 := by omega
  have hdiv : (q * 21 + off) / 21 = q := by omega
  have hmod : (q * 21 + off) % 21 = off := by omega
  unfold encodeVoiceData
  rw [dif_pos hlt]
  simp only [hdiv, hmod]

/-- Encoder byte 126+i holds pitch-envelope rate `i`. -/
theorem encodeVoiceData_pitch_rate (p : Patch) (i : ℕ) (hi : i < 4) :
    encodeVoiceData p (126 + i) = byteOfInt (p.pitch_env_rates ⟨i, hi⟩) := by
  have hidx : 126 + i - 126 = i := by omega
  unfold encodeVoiceData
  rw [dif_neg (by omega), dif_pos (by omega)]
  simp only [hidx]

/-- Encoder byte 130+i holds pitch-envelope level `i`. -/
theorem encodeVoiceData_pitch_level (p : Patch) (i : ℕ) (hi : i < 4) :
    encodeVoiceData p (130 + i) = byteOfInt (p.pitch_env_levels ⟨i, hi⟩) := by
  have hidx : 130 + i - 130 = i := by omega
  unfold encodeVoiceData
  rw [dif_neg (by omega), dif_neg (by omega), dif_pos (by omega)]
  simp only [hidx]

/-- Encoder byte 134 holds `(algorithm - 1) & 0x1F`. -/
theorem encodeVoiceData_134 (p : Patch) :
    encodeVoiceData p 134 = ((p.algorithm - 1) % 32).toNat := by
  norm_num [encodeVoiceData]

/-- Encoder byte 135 holds `feedback & 0x07`. -/
theorem encodeVoiceData_135 (p : Patch) :
    encodeVoiceData p 135 = (p.feedback % 8).toNat := by
  norm_num [encodeVoiceData]

/-- Encoder byte 136 holds the LFO speed byte. -/
theorem encodeVoiceData_136 (p : Patch) :
    encodeVoiceData p 136 = byteOfInt p.lfo_speed := by
  norm_num [encodeVoiceData]

/-- Encoder byte 137 holds the LFO delay byte. -/
theorem encodeVoiceData_137 (p : Patch) :
    encodeVoiceData p 137 = byteOfInt p.lfo_delay := by
  norm_num [encodeVoiceData]

/-- Encoder byte 138 holds the LFO PMD byte. -/
theorem encodeVoiceData_138 (p : Patch) :
    encodeVoiceData p 138 = byteOfInt p.lfo_pmd := by
  norm_num [encodeVoiceData]

/-- Encoder byte 139 holds the LFO AMD byte. -/
theorem encodeVoiceData_139 (p : Patch) :
    encodeVoiceData p 139 = byteOfInt p.lfo_amd := by
  norm_num [encodeVoiceData]

/-- Encoder byte 140 packs LFO sync, wave and pitch-mod sensitivity. -/
theorem encodeVoiceData_140 (p : Patch) :
    encodeVoiceData p 140 =
      ((p.lfo_sync % 2) + (p.lfo_wave % 8) * 2 + (p.lfo_pitch_mod_sens % 8) * 16).toNat := by
  norm_num [encodeVoiceData]

/-- Encoder byte 141 holds `(transpose + 24) & 0x3F`. -/
theorem encodeVoiceData_141 (p : Patch) :
    encodeVoiceData p 141 = ((p.transpose + 24) % 64).toNat := by
  norm_num [encodeVoiceData]

/-- Encoder bytes 142..151 hold the name, padded with spaces. -/
theorem encodeVoiceData_name (p : Patch) (i : ℕ) (hi : i < 10) :
    encodeVoiceData p (142 + i) =
      if i < p.name.length then p.name.getD i 0 % 256 else 32 := by
  have hidx : 142 + i - 142 = i := by omega
  have e126 : ¬ (142 + i < 126) := by omega
  have e130 : ¬ (142 + i < 130) := by omega
  have e134 : ¬ (142 + i < 134) := by omega
  have n134 : 142 + i ≠ 134 := by omega
  have n135 : 142 + i ≠ 135 := by omega
  have n136 : 142 + i ≠ 136 := by omega
  have n137 : 142 + i ≠ 137 := by omega
  have n138 : 142 + i ≠ 138 := by omega
  have n139 : 142 + i ≠ 139 := by omega
  have n140 : 142 + i ≠ 140 := by omega
  have n141 : 142 + i ≠ 141 := by omega
  have e152 : 142 + i < 152 := by omega
  unfold encodeVoiceData
  rw [dif_neg e126, dif_neg e130, dif_neg e134, if_neg n134, if_neg n135, if_neg n136,
    if_neg n137, if_neg n138, if_neg n139, if_neg n140, if_neg n141, if_pos e152, hidx]

/-- The coarse part of the frequency encoding is clamped to 31. -/
theorem freq_coarse_le31 (r : ℚ) : (freq_ratio_to_dx7_format r).1 ≤ 31 := by
  unfold freq_ratio_to_dx7_format
  split_ifs with h1
  · exact Nat.zero_le 31
  · dsimp only
    split_ifs with h3 <;> omega

/-- A sub-unity ratio encodes as coarse 0, fine 0. -/
theorem freq_sub_one (r : ℚ) (h : r < 1) : freq_ratio_to_dx7_format r = (0, 0) := by
  unfold freq_ratio_to_dx7_format
  rw [if_pos h]

/-- A ratio in `[1, 32)` encodes with coarse at least 1, fine at most
98, and decodes back to within `1/99` of the original ratio. -/
theorem freq_ge_one (r : ℚ) (h1 : 1 ≤ r) (h2 : r < 32) :
    1 ≤ (freq_ratio_to_dx7_format r).1 ∧
    (freq_ratio_to_dx7_format r).2 ≤ 98 ∧
    |dx7_format_to_freq_ratio (freq_ratio_to_dx7_format r).1 (freq_ratio_to_dx7_format r).2
      - r| < 1/99 := by
  have hf1 : (1 : ℤ) ≤ ⌊r⌋ := Int.le_floor.mpr (by exact_mod_cast h1)
  have hf2 : ⌊r⌋ ≤ 31 := by
    have h32 : ⌊r⌋ < 32 := Int.floor_lt.mpr (by exact_mod_cast h2)
    omega
  have hfl : (⌊r⌋ : ℚ) ≤ r := Int.floor_le r
  have hfu : r < (⌊r⌋ : ℚ) + 1 := Int.lt_floor_add_one r
  have hff0 : (0 : ℤ) ≤ ⌊(r - (⌊r⌋ : ℚ)) * 99⌋ := Int.floor_nonneg.mpr (by nlinarith)
  have hff1 : ⌊(r - (⌊r⌋ : ℚ)) * 99⌋ ≤ 98 := by
    have : ⌊(r - (⌊r⌋ : ℚ)) * 99⌋ < 99 := Int.floor_lt.mpr (by push_cast; nlinarith)
    omega
  have hmod : ⌊(r - (⌊r⌋ : ℚ)) * 99⌋ % 256 = ⌊(r - (⌊r⌋ : ℚ)) * 99⌋ := by omega
  have hfloor_le : (⌊(r - (⌊r⌋ : ℚ)) * 99⌋ : ℚ) ≤ (r - (⌊r⌋ : ℚ)) * 99 :=
    Int.floor_le _
  have hfloor_gt : (r - (⌊r⌋ : ℚ)) * 99 - 1 < (⌊(r - (⌊r⌋ : ℚ)) * 99⌋ : ℚ) :=
    Int.sub_one_lt_floor _
  unfold freq_ratio_to_dx7_format
  rw [if_neg (not_lt.mpr h1)]
  dsimp only
  rw [if_neg (by omega : ¬ ⌊r⌋ > 31)]
  simp only [hmod]
  rw [if_neg (by omega : ¬ ⌊(r - (⌊r⌋ : ℚ)) * 99⌋.toNat > 99)]
  refine ⟨by omega, by omega, ?_⟩
  unfold dx7_format_to_freq_ratio
  rw [if_neg (by omega)]
  have hc : ((⌊r⌋.toNat : ℕ) : ℚ) = (⌊r⌋ : ℚ) := by
    exact_mod_cast Int.toNat_of_nonneg (by omega : (0:ℤ) ≤ ⌊r⌋)
  have hfq : ((⌊(r - (⌊r⌋ : ℚ)) * 99⌋.toNat : ℕ) : ℚ) = (⌊(r - (⌊r⌋ : ℚ)) * 99⌋ : ℚ) := by
    exact_mod_cast Int.toNat_of_nonneg hff0
  rw [hc, hfq, abs_lt]
  constructor <;> linarith

/-- Bit 1..5 of encoded byte 15 recover the coarse frequency value. -/
theorem encodeOpByte_15 (o : DxOperator) :
    encodeOpByte o 15 / 2 % 32 = (freq_ratio_to_dx7_format o.freq_ratio).1 := by
  show ((o.osc_sync % 2).toNat + (freq_ratio_to_dx7_format o.freq_ratio).1 % 32 * 2)
      / 2 % 32 = _
  have hcoarse : (freq_ratio_to_dx7_format o.freq_ratio).1 ≤ 31 := freq_coarse_le31 _
  omega

/-- Decoding an encoded operator with a sub-unity frequency ratio gives
the fixed ratio 0.50. -/
theorem decodeOp_encode_freq_lt (o : DxOperator) (h : o.freq_ratio < 1) :
    (decodeOp (encodeOpByte o)).freq_ratio = 1/2 := by
  show dx7_format_to_freq_ratio (encodeOpByte o 15 / 2 % 32) (encodeOpByte o 16) = 1/2
  rw [encodeOpByte_15, (rfl : encodeOpByte o 16 = (freq_ratio_to_dx7_format o.freq_ratio).2),
    freq_sub_one _ h]
  rfl

/-- Decoding an encoded operator with ratio in `[1, 32)` recovers the
ratio to within the fine-quantisation error `1/99`. -/
theorem decodeOp_encode_freq_ge (o : DxOperator) (h1 : 1 ≤ o.freq_ratio)
    (h2 : o.freq_ratio < 32) :
    |(decodeOp (encodeOpByte o)).freq_ratio - o.freq_ratio| < 1/99 := by
  have hq := freq_ge_one o.freq_ratio h1 h2
  show |dx7_format_to_freq_ratio (encodeOpByte o 15 / 2 % 32) (encodeOpByte o 16)
    - o.freq_ratio| < 1/99
  rw [encodeOpByte_15, (rfl : encodeOpByte o 16 = (freq_ratio_to_dx7_format o.freq_ratio).2)]
  exact hq.2.2

/-- Decoding an encoded in-range operator recovers every integer field. -/
theorem decodeOp_encode_fields (o : DxOperator) (h : OperatorInRange o) :
    OperatorFieldsEq (decodeOp (encodeOpByte o)) o := by
  obtain ⟨hr, hl, hol, hkv, hbp, hld, hrd, hlc, hrc, hkr, hos, hdt, hfr⟩ := h
  refine ⟨?_, ?_, ?_, ?_, ?_, ?_, ?_, ?_, ?_, ?_, ?_, ?_⟩
  · show ((((o.osc_sync % 2).toNat + ((o.detune + 7) % 16).toNat % 16 * 2)
        / 2 % 16 : ℕ) : ℤ) - 7 = o.detune
    omega
  · funext r
    fin_cases r
    · have hb := hr 0
      show (((o.env_rates 0 % 256).toNat : ℕ) : ℤ) = o.env_rates 0
      omega
    · have hb := hr 1
      show (((o.env_rates 1 % 256).toNat : ℕ) : ℤ) = o.env_rates 1
      omega
    · have hb := hr 2
      show (((o.env_rates 2 % 256).toNat : ℕ) : ℤ) = o.env_rates 2
      omega
    · have hb := hr 3
      show (((o.env_rates 3 % 256).toNat : ℕ) : ℤ) = o.env_rates 3
      omega
  · funext r
    fin_cases r
    · have hb := hl 0
      show (((o.env_levels 0 % 256).toNat : ℕ) : ℤ) = o.env_levels 0
      omega
    · have hb := hl 1
      show (((o.env_levels 1 % 256).toNat : ℕ) : ℤ) = o.env_levels 1
      omega
    · have hb := hl 2
      show (((o.env_levels 2 % 256).toNat : ℕ) : ℤ) = o.env_levels 2
      omega
    · have hb := hl 3
      show (((o.env_levels 3 % 256).toNat : ℕ) : ℤ) = o.env_levels 3
      omega
  · show (((o.output_level % 256).toNat : ℕ) : ℤ) = o.output_level
    omega
  · show ((((o.key_vel_sens % 8) * 4).toNat / 4 % 8 : ℕ) : ℤ) = o.key_vel_sens
    omega
  · show (((o.key_level_scale_break_point % 256).toNat : ℕ) : ℤ) =
      o.key_level_scale_break_point
    omega
  · show (((o.key_level_scale_left_depth % 256).toNat : ℕ) : ℤ) =
      o.key_level_scale_left_depth
    omega
  · show (((o.key_level_scale_right_depth % 256).toNat : ℕ) : ℤ) =
      o.key_level_scale_right_depth
    omega
  · show (((o.key_level_scale_left_curve % 4).toNat % 4 : ℕ) : ℤ) =
      o.key_level_scale_left_curve
    omega
  · show ((((o.key_level_scale_right_curve % 4) + (o.key_rate_scaling % 8) * 4).toNat
        % 4 : ℕ) : ℤ) = o.key_level_scale_right_curve
    omega
  · show ((((o.key_level_scale_right_curve % 4) + (o.key_rate_scaling % 8) * 4).toNat
        / 4 % 8 : ℕ) : ℤ) = o.key_rate_scaling
    omega
  · show ((((o.osc_sync % 2).toNat +
        (freq_ratio_to_dx7_format o.freq_ratio).1 % 32 * 2) % 2 : ℕ) : ℤ) = o.osc_sync
    omega

/-- Every byte list splits as its space-trimmed prefix plus trailing
spaces. -/
theorem trim_decomp (l : List ℕ) :
    ∃ k, l = trimTrailingSpaces l ++ List.replicate k 32 ∧
      (trimTrailingSpaces l).length + k = l.length := by
  refine ⟨(l.reverse.takeWhile (· = 32)).length, ?_, ?_⟩
  · have hrep : l.reverse.takeWhile (· = 32) =
        List.replicate (l.reverse.takeWhile (· = 32)).length 32 := by
      apply List.eq_replicate_of_mem
      intro b hb
      have hmem := List.mem_takeWhile_imp hb
      simp at hmem
      exact hmem
    have hsplit : l.reverse.takeWhile (· = 32) ++ l.reverse.dropWhile (· = 32) =
        l.reverse := List.takeWhile_append_dropWhile _ l.reverse
    calc l = l.reverse.reverse := (List.reverse_reverse l).symm
      _ = (l.reverse.takeWhile (· = 32) ++ l.reverse.dropWhile (· = 32)).reverse := by
          rw [hsplit]
      _ = (l.reverse.dropWhile (· = 32)).reverse ++
            (l.reverse.takeWhile (· = 32)).reverse := by rw [List.reverse_append]
      _ = trimTrailingSpaces l ++ List.replicate (l.reverse.takeWhile (· = 32)).length 32 := by
          unfold trimTrailingSpaces
          congr 1
          conv_lhs => rw [hrep]
          rw [List.reverse_replicate]
  · have hsplit : l.reverse.takeWhile (· = 32) ++ l.reverse.dropWhile (· = 32) =
        l.reverse := List.takeWhile_append_dropWhile _ l.reverse
    have := congrArg List.length hsplit
    simp only [List.length_append, List.length_reverse] at this
    unfold trimTrailingSpaces
    simp only [List.length_reverse]
    omega

/-- The ten name bytes an encoded patch carries: the name followed by
space padding. -/
theorem name_bytes_append (p : Patch) (hlen : p.name.length ≤ 10)
    (hb : ∀ b ∈ p.name, 0 < b ∧ b < 128) :
    (List.range 10).map (fun i => encodeVoiceData p (142 + i)) =
      p.name ++ List.replicate (10 - p.name.length) 32 := by
  apply List.ext_getElem
  · simp; omega
  · intro i h1 h2
    have hi : i < 10 := by simpa using h1
    rw [List.getElem_map, List.getElem_range, encodeVoiceData_name p i hi]
    by_cases hil : i < p.name.length
    · rw [if_pos hil, List.getElem_append_left hil, List.getD_eq_getElem _ _ hil]
      have hmem : p.name[i] ∈ p.name := List.getElem_mem _
      have := hb _ hmem
      omega
    · rw [if_neg hil, List.getElem_append_right (by omega), List.getElem_replicate]

/-- Decoding the name bytes of an encoded patch gives the original
name with trailing spaces trimmed. -/
theorem decodedName_encode (p : Patch) (hlen : p.name.length ≤ 10)
    (hb : ∀ b ∈ p.name, 0 < b ∧ b < 128) :
    decodedName (encodeVoiceData p) = trimTrailingSpaces p.name := by
  unfold decodedName
  rw [name_bytes_append p hlen hb]
  have htake : (p.name ++ List.replicate (10 - p.name.length) 32).takeWhile (· ≠ 0) =
      p.name ++ List.replicate (10 - p.name.length) 32 := by
    rw [List.takeWhile_eq_self_iff]
    intro x hx
    rcases List.mem_append.mp hx with hx | hx
    · have := hb _ hx
      simp; omega
    · have := List.eq_of_mem_replicate hx
      simp [this]
  rw [htake]
  generalize 10 - p.name.length = k
  unfold trimTrailingSpaces
  rw [List.reverse_append, List.reverse_replicate]
  congr 1
  induction k with
  | zero => rfl
  | succ n ih =>
      rw [List.replicate_succ, List.cons_append, List.dropWhile_cons]
      simp only [decide_True, if_true]
      exact ih

/-- Re-encoding a decoded name byte reproduces the stored byte, when
the ten name bytes are non-NUL bytes. -/
theorem decodedName_getD (vd : ℕ → ℕ) (hnz : ∀ i < 10, vd (142 + i) ≠ 0)
    (hlt : ∀ i < 10, vd (142 + i) < 256) (j : ℕ) (hj : j < 10) :
    (if j < (decodedName vd).length then (decodedName vd).getD j 0 % 256 else 32) =
      vd (142 + j) := by
  set L : List ℕ := (List.range 10).map (fun i => vd (142 + i)) with hLdef
  have hLlen : L.length = 10 := by simp [hLdef]
  have hLget : ∀ i (h : i < L.length), L[i] = vd (142 + i) := by
    intro i h
    simp [hLdef]
  have htake : L.takeWhile (· ≠ 0) = L := by
    rw [List.takeWhile_eq_self_iff]
    intro x hx
    simp only [hLdef, List.mem_map, List.mem_range] at hx
    obtain ⟨i, hi, rfl⟩ := hx
    exact decide_eq_true (hnz i hi)
  have hdn : decodedName vd = trimTrailingSpaces L := by
    unfold decodedName
    rw [← hLdef, htake]
  obtain ⟨k, hdecomp, hklen⟩ := trim_decomp L
  set T := trimTrailingSpaces L with hT
  rw [hdn]
  have hgd : L.getD j 0 = vd (142 + j) := by
    rw [List.getD_eq_getElem _ _ (by omega)]
    exact hLget j (by omega)
  by_cases hjl : j < T.length
  · rw [if_pos hjl]
    have h1 : L.getD j 0 = T.getD j 0 := by
      rw [hdecomp, List.getD_append _ _ _ _ hjl]
    have := hlt j hj
    omega
  · rw [if_neg hjl]
    have h1 : L.getD j 0 = 32 := by
      rw [hdecomp, List.getD_append_right _ _ _ _ (by omega),
        List.getD_eq_getElem _ _ (by simp; omega)]
      simp
    omega

/-- Decoding then re-encoding a canonical (coarse, fine) pair is the
identity. -/
theorem freq_roundtrip (c f : ℕ) (hc : c ≤ 31) (h0 : c = 0 → f = 0) (hf : f ≤ 98) :
    freq_ratio_to_dx7_format (dx7_format_to_freq_ratio c f) = (c, f) := by
  unfold dx7_format_to_freq_ratio
  by_cases hc0 : c = 0
  · rw [if_pos hc0]
    have hf0 : f = 0 := h0 hc0
    subst hc0 hf0
    unfold freq_ratio_to_dx7_format
    rw [if_pos (by norm_num)]
  · rw [if_neg hc0]
    have hc1 : 1 ≤ c := by omega
    have hfq : (0 : ℚ) ≤ (f : ℚ) / 99 := by positivity
    have hfq1 : (f : ℚ) / 99 < 1 := by
      rw [div_lt_one (by norm_num)]
      exact_mod_cast by omega
    have hge : ¬ ((c : ℚ) + (f : ℚ) / 99 < 1) := by
      push_neg
      have : (1 : ℚ) ≤ (c : ℚ) := by exact_mod_cast hc1
      linarith
    have hfloor : ⌊(c : ℚ) + (f : ℚ) / 99⌋ = (c : ℤ) := by
      rw [Int.floor_eq_iff]
      constructor
      · push_cast
        linarith
      · push_cast
        linarith
    unfold freq_ratio_to_dx7_format
    rw [if_neg hge]
    dsimp only
    rw [hfloor]
    rw [if_neg (by exact_mod_cast by omega : ¬ ((c : ℤ) > 31))]
    have hfrac : (c : ℚ) + (f : ℚ) / 99 - ((c : ℤ) : ℚ) = (f : ℚ) / 99 := by
      push_cast
      ring
    rw [hfrac]
    have hmul : (f : ℚ) / 99 * 99 = (f : ℚ) := by
      field_simp
    rw [hmul]
    rw [Int.floor_natCast]
    have hmod : ((f : ℤ) % 256) = (f : ℤ) := by omega
    rw [hmod]
    have htn : ((f : ℤ)).toNat = f := Int.toNat_natCast f
    rw [htn]
    rw [if_neg (by omega)]
    simp


-- decodeOp only reads offsets below 21
theorem decodeOp_congr (g1 g2 : ℕ → ℕ) (h : ∀ off < 21, g1 off = g2 off) :
    decodeOp g1 = decodeOp g2 := by
  unfold decodeOp
  congr 1
  · rw [h 15 (by omega), h 16 (by omega)]
  · rw [h 17 (by omega)]
  · funext r
    fin_cases r <;> exact congrArg Nat.cast (h _ (by simp))
  · funext r
    fin_cases r <;> exact congrArg Nat.cast (h _ (by simp))
  · rw [h 14 (by omega)]
  · rw [h 13 (by omega)]
  · rw [h 8 (by omega)]
  · rw [h 9 (by omega)]
  · rw [h 10 (by omega)]
  · rw [h 11 (by omega)]
  · rw [h 12 (by omega)]
  · rw [h 12 (by omega)]
  · rw [h 15 (by omega)]

-- the decoded operator j of an encoded patch
theorem decodedPatch_encode_op (p : Patch) (j : Fin 6) :
    decodeOp (fun off => encodeVoiceData p ((5 - j.val) * 21 + off)) =
      decodeOp (encodeOpByte (p.operators j)) := by
  apply decodeOp_congr
  intro off hoff
  have hj : j.val < 6 := j.isLt
  have hmk : (⟨5 - (5 - j.val), by omega⟩ : Fin 6) = j := Fin.ext (by simp; omega)
  rw [encodeVoiceData_op p (5 - j.val) off (by omega) hoff, hmk]

-- re-encoding a canonically decoded block reproduces each byte
theorem encodeOpByte_decodeOp (g : ℕ → ℕ) (hcan : opBlockCanonical g)
    (hlt : ∀ off < 21, g off < 256) (off : ℕ) (hoff : off < 21) :
    encodeOpByte (decodeOp g) off = g off := by
  obtain ⟨h11, h12, h13, h15, h160, h16, h17, h1715, h18, h19, h20⟩ := hcan
  have hf : g 16 ≤ 98 := by
    by_cases hz : g 15 / 2 % 32 = 0
    · have := h160 hz
      omega
    · exact h16 hz
  have hrt := freq_roundtrip (g 15 / 2 % 32) (g 16) (by omega) h160 hf
  have hb0 := hlt 0 (by omega)
  have hb1 := hlt 1 (by omega)
  have hb2 := hlt 2 (by omega)
  have hb3 := hlt 3 (by omega)
  have hb4 := hlt 4 (by omega)
  have hb5 := hlt 5 (by omega)
  have hb6 := hlt 6 (by omega)
  have hb7 := hlt 7 (by omega)
  have hb8 := hlt 8 (by omega)
  have hb9 := hlt 9 (by omega)
  have hb10 := hlt 10 (by omega)
  have hb14 := hlt 14 (by omega)
  interval_cases off
  · show ((g 0 : ℤ) % 256).toNat = g 0
    omega
  · show ((g 1 : ℤ) % 256).toNat = g 1
    omega
  · show ((g 2 : ℤ) % 256).toNat = g 2
    omega
  · show ((g 3 : ℤ) % 256).toNat = g 3
    omega
  · show ((g 4 : ℤ) % 256).toNat = g 4
    omega
  · show ((g 5 : ℤ) % 256).toNat = g 5
    omega
  · show ((g 6 : ℤ) % 256).toNat = g 6
    omega
  · show ((g 7 : ℤ) % 256).toNat = g 7
    omega
  · show ((g 8 : ℤ) % 256).toNat = g 8
    omega
  · show ((g 9 : ℤ) % 256).toNat = g 9
    omega
  · show ((g 10 : ℤ) % 256).toNat = g 10
    omega
  · show (((g 11 % 4 : ℕ) : ℤ) % 4).toNat = g 11
    omega
  · show ((((g 12 % 4 : ℕ) : ℤ) % 4 + ((g 12 / 4 % 8 : ℕ) : ℤ) % 8 * 4).toNat = g 12)
    omega
  · show ((((g 13 / 4 % 8 : ℕ) : ℤ) % 8) * 4).toNat = g 13
    omega
  · show ((g 14 : ℤ) % 256).toNat = g 14
    omega
  · show (((g 15 % 2 : ℕ) : ℤ) % 2).toNat +
        (freq_ratio_to_dx7_format (dx7_format_to_freq_ratio (g 15 / 2 % 32) (g 16))).1
          % 32 * 2 = g 15
    rw [hrt]
    omega
  · show (freq_ratio_to_dx7_format (dx7_format_to_freq_ratio (g 15 / 2 % 32) (g 16))).2
        = g 16
    rw [hrt]
  · show (((g 15 % 2 : ℕ) : ℤ) % 2).toNat +
        ((((g 17 / 2 % 16 : ℕ) : ℤ) - 7 + 7) % 16).toNat % 16 * 2 = g 17
    omega
  · show (0 : ℕ) = g 18
    omega
  · show (0 : ℕ) = g 19
    omega
  · show (0 : ℕ) = g 20
    omega

-- checksum only depends on the first `n` bytes
theorem checksum_congr (f g : ℕ → ℕ) (n : ℕ) (h : ∀ i < n, f i = g i) :
    calculate_dx7_checksum f n = calculate_dx7_checksum g n := by
  unfold calculate_dx7_checksum
  have hsum : (List.range n).foldl (fun s i => s + f i) 0 =
      (List.range n).foldl (fun s i => s + g i) 0 := by
    induction n with
    | zero => rfl
    | succ m ih =>
        rw [List.range_succ, List.foldl_append, List.foldl_append,
          ih (fun i hi => h i (by omega))]
        simp only [List.foldl_cons, List.foldl_nil]
        rw [h m (by omega)]
  rw [hsum]


/-! ## Claims C1 and C5: codec round trips -/

/-- A channel in 0..15 makes the encoder succeed with the explicit
`encodedSysex` record. -/
theorem dx7_patch_to_sysex_eq (p : Patch) (ch : ℕ) (h : ch ≤ 15) :
    dx7_patch_to_sysex p ch = some (encodedSysex p ch) := by
  unfold dx7_patch_to_sysex encodedSysex
  rw [if_neg (by omega)]

/-- Decoding an encoded sysex always passes the framing and checksum
checks. -/
theorem decode_encodedSysex (p : Patch) (ch : ℕ) (q : Patch) :
    dx7_sysex_to_patch (encodedSysex p ch) q =
      (true, decodedPatch (encodedSysex p ch)) := by
  unfold dx7_sysex_to_patch
  rw [if_neg (by simp [encodedSysex]), if_neg (by simp [encodedSysex])]

/-- Re-encoding the decode of a canonical sysex reproduces every one
of the 155 voice-data bytes. -/
theorem reencode_byte (s : Sysex) (hcan : CanonicalSysex s) (i : ℕ) (hi : i < 155) :
    encodeVoiceData (decodedPatch s) i = s.voice_data i := by
  obtain ⟨hst, hman, hsub, hfmt, hmsb, hlsb, hend, hchk, hlt, hblocks,
    h134, h135, h140, h141, hname, h152, h153, h154⟩ := hcan
  by_cases h126 : i < 126
  · have hq : i / 21 < 6 := by omega
    have hoff : i % 21 < 21 := Nat.mod_lt _ (by omega)
    unfold encodeVoiceData
    rw [dif_pos h126]
    have hop : (decodedPatch s).operators ⟨5 - i / 21, by omega⟩ =
        decodeOp (fun off => s.voice_data ((5 - (5 - i / 21)) * 21 + off)) := rfl
    rw [hop]
    have h55 : 5 - (5 - i / 21) = i / 21 := by omega
    rw [h55]
    rw [encodeOpByte_decodeOp _ (hblocks (i / 21) hq)
      (fun off hoff2 => hlt _ (by omega)) _ hoff]
    congr 1
    omega
  · by_cases h134r : i < 134
    · by_cases hr : i < 130
      · have hi4 : i - 126 < 4 := by omega
        have hieq : i = 126 + (i - 126) := by omega
        rw [hieq, encodeVoiceData_pitch_rate _ _ hi4]
        show ((s.voice_data (126 + (i - 126)) : ℤ) % 256).toNat =
          s.voice_data (126 + (i - 126))
        have := hlt (126 + (i - 126)) (by omega)
        omega
      · have hi4 : i - 130 < 4 := by omega
        have hieq : i = 130 + (i - 130) := by omega
        rw [hieq, encodeVoiceData_pitch_level _ _ hi4]
        show ((s.voice_data (130 + (i - 130)) : ℤ) % 256).toNat =
          s.voice_data (130 + (i - 130))
        have := hlt (130 + (i - 130)) (by omega)
        omega
    · by_cases h142 : i < 142
      · have h136 := hlt 136 (by omega)
        have h137 := hlt 137 (by omega)
        have h138 := hlt 138 (by omega)
        have h139 := hlt 139 (by omega)
        interval_cases i
        · rw [encodeVoiceData_134]
          show ((((s.voice_data 134 % 32 : ℕ) : ℤ) + 1 - 1) % 32).toNat = s.voice_data 134
          omega
        · rw [encodeVoiceData_135]
          show (((s.voice_data 135 % 8 : ℕ) : ℤ) % 8).toNat = s.voice_data 135
          omega
        · rw [encodeVoiceData_136]
          show ((s.voice_data 136 : ℤ) % 256).toNat = s.voice_data 136
          omega
        · rw [encodeVoiceData_137]
          show ((s.voice_data 137 : ℤ) % 256).toNat = s.voice_data 137
          omega
        · rw [encodeVoiceData_138]
          show ((s.voice_data 138 : ℤ) % 256).toNat = s.voice_data 138
          omega
        · rw [encodeVoiceData_139]
          show ((s.voice_data 139 : ℤ) % 256).toNat = s.voice_data 139
          omega
        · rw [encodeVoiceData_140]
          show (((s.voice_data 140 % 2 : ℕ) : ℤ) % 2 +
              ((s.voice_data 140 / 2 % 8 : ℕ) : ℤ) % 8 * 2 +
              ((s.voice_data 140 / 16 % 8 : ℕ) : ℤ) % 8 * 16).toNat = s.voice_data 140
          omega
        · rw [encodeVoiceData_141]
          show ((((s.voice_data 141 % 64 : ℕ) : ℤ) - 24 + 24) % 64).toNat =
            s.voice_data 141
          omega
      · by_cases h152r : i < 152
        · have hj : i - 142 < 10 := by omega
          have hieq : i = 142 + (i - 142) := by omega
          rw [hieq, encodeVoiceData_name _ _ hj]
          exact decodedName_getD s.voice_data hname
            (fun k hk => hlt (142 + k) (by omega)) (i - 142) hj
        · interval_cases i
          · show (63 : ℕ) = s.voice_data 152
            omega
          · show (0 : ℕ) = s.voice_data 153
            omega
          · show (0 : ℕ) = s.voice_data 154
            omega

/-- The counterexample patch is in range. -/
theorem cxPatch_in_range : PatchInRange cxPatch := by
  unfold PatchInRange OperatorInRange cxPatch cxOperator zeroPatch zeroOperator
  refine ⟨fun j => ?_, ?_, ?_, ?_, ?_, ?_, ?_, ?_, ?_, ?_, ?_, ?_, ?_, ?_⟩ <;>
    norm_num

set_option maxRecDepth 10000 in
/-- `canonSysex` satisfies the canonical-form predicate. -/
theorem canonSysex_canonical : CanonicalSysex canonSysex := by
  unfold CanonicalSysex opBlockCanonical
  decide

/-- Claim C1 counterexample: the claim "freq_ratio is recovered to
within 1/99" fails for an in-range patch with `freq_ratio = 0.75`:
the encoder stores coarse 0, the decoder returns exactly 0.50, and
`|0.50 - 0.75| = 0.25 > 1/99`. -/
theorem C1_counterexample :
    PatchInRange cxPatch ∧
    dx7_patch_to_sysex cxPatch 0 = some (encodedSysex cxPatch 0) ∧
    (dx7_sysex_to_patch (encodedSysex cxPatch 0) zeroPatch).1 = true ∧
    ¬ |((dx7_sysex_to_patch (encodedSysex cxPatch 0) zeroPatch).2.operators 0).freq_ratio -
        (cxPatch.operators 0).freq_ratio| < 1/99 := by
  refine ⟨cxPatch_in_range, dx7_patch_to_sysex_eq _ _ (by omega), ?_, ?_⟩
  · rw [decode_encodedSysex]
  · rw [decode_encodedSysex]
    have hop : (decodedPatch (encodedSysex cxPatch 0)).operators 0 =
        decodeOp (encodeOpByte (cxPatch.operators 0)) := by
      have hraw : (decodedPatch (encodedSysex cxPatch 0)).operators 0 =
          decodeOp (fun off => encodeVoiceData cxPatch ((5 - (0 : Fin 6).val) * 21 + off)) :=
        rfl
      rw [hraw, decodedPatch_encode_op]
    show ¬ |((true, decodedPatch (encodedSysex cxPatch 0)).2.operators 0).freq_ratio -
        (cxPatch.operators 0).freq_ratio| < 1/99
    rw [show ((true, decodedPatch (encodedSysex cxPatch 0)).2.operators 0) =
        (decodedPatch (encodedSysex cxPatch 0)).operators 0 from rfl, hop,
      decodeOp_encode_freq_lt _ (by norm_num [cxPatch, cxOperator, zeroOperator])]
    rw [show (cxPatch.operators 0).freq_ratio = 3/4 from rfl]
    rw [show (1/2 : ℚ) - 3/4 = -(1/4) by norm_num, abs_neg,
      abs_of_nonneg (by norm_num : (0:ℚ) ≤ 1/4)]
    norm_num

/-- Claim C1 (amended): for an in-range patch and channel 0..15,
decode of encode succeeds and recovers the name trimmed of trailing
spaces, every global field, every integer operator field, and the
frequency ratio exactly as 0.50 when the original ratio is below 1 and
to within 1/99 when the original ratio is in [1, 32). -/
theorem C1_amended_roundtrip (p : Patch) (ch : ℕ) (q : Patch)
    (hch : ch ≤ 15) (hp : PatchInRange p) :
    ∃ S, dx7_patch_to_sysex p ch = some S ∧
      (dx7_sysex_to_patch S q).1 = true ∧
      (dx7_sysex_to_patch S q).2.name = trimTrailingSpaces p.name ∧
      (dx7_sysex_to_patch S q).2.algorithm = p.algorithm ∧
      (dx7_sysex_to_patch S q).2.feedback = p.feedback ∧
      (dx7_sysex_to_patch S q).2.lfo_speed = p.lfo_speed ∧
      (dx7_sysex_to_patch S q).2.lfo_delay = p.lfo_delay ∧
      (dx7_sysex_to_patch S q).2.lfo_pmd = p.lfo_pmd ∧
      (dx7_sysex_to_patch S q).2.lfo_amd = p.lfo_amd ∧
      (dx7_sysex_to_patch S q).2.lfo_sync = p.lfo_sync ∧
      (dx7_sysex_to_patch S q).2.lfo_wave = p.lfo_wave ∧
      (dx7_sysex_to_patch S q).2.lfo_pitch_mod_sens = p.lfo_pitch_mod_sens ∧
      (dx7_sysex_to_patch S q).2.pitch_env_rates = p.pitch_env_rates ∧
      (dx7_sysex_to_patch S q).2.pitch_env_levels = p.pitch_env_levels ∧
      (dx7_sysex_to_patch S q).2.transpose = p.transpose ∧
      ∀ j : Fin 6,
        OperatorFieldsEq ((dx7_sysex_to_patch S q).2.operators j) (p.operators j) ∧
        ((p.operators j).freq_ratio < 1 →
          ((dx7_sysex_to_patch S q).2.operators j).freq_ratio = 1/2) ∧
        (1 ≤ (p.operators j).freq_ratio →
          |((dx7_sysex_to_patch S q).2.operators j).freq_ratio -
            (p.operators j).freq_ratio| < 1/99) := by
  obtain ⟨hops, halg, hfb, hspd, hdly, hpmd, hamd, hsyn, hwav, hpms, hper, hpel,
    htr, hnm⟩ := hp
  refine ⟨encodedSysex p ch, dx7_patch_to_sysex_eq p ch hch, ?_⟩
  rw [decode_encodedSysex]
  refine ⟨rfl, ?_, ?_, ?_, ?_, ?_, ?_, ?_, ?_, ?_, ?_, ?_, ?_, ?_, ?_⟩
  · exact decodedName_encode p hnm.1 hnm.2
  · show ((((p.algorithm - 1) % 32).toNat % 32 : ℕ) : ℤ) + 1 = p.algorithm
    omega
  · show (((p.feedback % 8).toNat % 8 : ℕ) : ℤ) = p.feedback
    omega
  · show (((p.lfo_speed % 256).toNat : ℕ) : ℤ) = p.lfo_speed
    omega
  · show (((p.lfo_delay % 256).toNat : ℕ) : ℤ) = p.lfo_delay
    omega
  · show (((p.lfo_pmd % 256).toNat : ℕ) : ℤ) = p.lfo_pmd
    omega
  · show (((p.lfo_amd % 256).toNat : ℕ) : ℤ) = p.lfo_amd
    omega
  · show ((((p.lfo_sync % 2) + (p.lfo_wave % 8) * 2 + (p.lfo_pitch_mod_sens % 8) * 16).toNat
        % 2 : ℕ) : ℤ) = p.lfo_sync
    omega
  · show ((((p.lfo_sync % 2) + (p.lfo_wave % 8) * 2 + (p.lfo_pitch_mod_sens % 8) * 16).toNat
        / 2 % 8 : ℕ) : ℤ) = p.lfo_wave
    omega
  · show ((((p.lfo_sync % 2) + (p.lfo_wave % 8) * 2 + (p.lfo_pitch_mod_sens % 8) * 16).toNat
        / 16 % 8 : ℕ) : ℤ) = p.lfo_pitch_mod_sens
    omega
  · funext r
    fin_cases r
    · have hb := hper 0
      show (((p.pitch_env_rates 0 % 256).toNat : ℕ) : ℤ) = p.pitch_env_rates 0
      omega
    · have hb := hper 1
      show (((p.pitch_env_rates 1 % 256).toNat : ℕ) : ℤ) = p.pitch_env_rates 1
      omega
    · have hb := hper 2
      show (((p.pitch_env_rates 2 % 256).toNat : ℕ) : ℤ) = p.pitch_env_rates 2
      omega
    · have hb := hper 3
      show (((p.pitch_env_rates 3 % 256).toNat : ℕ) : ℤ) = p.pitch_env_rates 3
      omega
  · funext r
    fin_cases r
    · have hb := hpel 0
      show (((p.pitch_env_levels 0 % 256).toNat : ℕ) : ℤ) = p.pitch_env_levels 0
      omega
    · have hb := hpel 1
      show (((p.pitch_env_levels 1 % 256).toNat : ℕ) : ℤ) = p.pitch_env_levels 1
      omega
    · have hb := hpel 2
      show (((p.pitch_env_levels 2 % 256).toNat : ℕ) : ℤ) = p.pitch_env_levels 2
      omega
    · have hb := hpel 3
      show (((p.pitch_env_levels 3 % 256).toNat : ℕ) : ℤ) = p.pitch_env_levels 3
      omega
  · show ((((p.transpose + 24) % 64).toNat % 64 : ℕ) : ℤ) - 24 = p.transpose
    omega
  · intro j
    have hop : (decodedPatch (encodedSysex p ch)).operators j =
        decodeOp (encodeOpByte (p.operators j)) := by
      have hraw : (decodedPatch (encodedSysex p ch)).operators j =
          decodeOp (fun off => encodeVoiceData p ((5 - j.val) * 21 + off)) := rfl
      rw [hraw, decodedPatch_encode_op]
    obtain ⟨hr, hl, hol, hkv, hbp, hld, hrd, hlc, hrc, hkr, hos, hdt, hfr⟩ := hops j
    refine ⟨?_, ?_, ?_⟩
    · rw [hop]
      exact decodeOp_encode_fields _ (hops j)
    · intro h1
      rw [hop]
      exact decodeOp_encode_freq_lt _ h1
    · intro h1
      rw [hop]
      exact decodeOp_encode_freq_ge _ h1 hfr.2

/-- Witness for C1 (amended): the round trip at `cxPatch`, channel 0. -/
theorem C1_witness :
    (0 : ℕ) ≤ 15 ∧ PatchInRange cxPatch ∧
    ∃ S, dx7_patch_to_sysex cxPatch 0 = some S ∧
      (dx7_sysex_to_patch S zeroPatch).1 = true :=
  ⟨by omega, cxPatch_in_range,
    (C1_amended_roundtrip cxPatch 0 zeroPatch (by omega) cxPatch_in_range).elim
      fun S hS => ⟨S, hS.1, hS.2.1⟩⟩

set_option maxRecDepth 10000 in
/-- Claim C5 counterexample: a valid all-zero voice sysex decodes
successfully, but re-encoding writes 0x3F at byte 152 where the
original had 0, so encode of decode is not byte-for-byte the
original. -/
theorem C5_counterexample :
    (dx7_sysex_to_patch zeroVdSysex zeroPatch).1 = true ∧
    dx7_patch_to_sysex (dx7_sysex_to_patch zeroVdSysex zeroPatch).2
        zeroVdSysex.sub_status =
      some (encodedSysex (dx7_sysex_to_patch zeroVdSysex zeroPatch).2
        zeroVdSysex.sub_status) ∧
    (encodedSysex (dx7_sysex_to_patch zeroVdSysex zeroPatch).2
        zeroVdSysex.sub_status).voice_data 152 ≠ zeroVdSysex.voice_data 152 := by
  refine ⟨?_, dx7_patch_to_sysex_eq _ _ (by decide), ?_⟩
  · decide
  · show (63 : ℕ) ≠ 0
    decide

/-- Claim C5 (amended): for a canonical voice sysex (valid framing and
checksum, decoder-ignored bits zero, operator-enable byte 0x3F,
non-NUL name bytes, consistent frequency bytes), encoding the decoded
patch on the stored channel reproduces the header fields, all 155
voice-data bytes, and the checksum. -/
theorem C5_amended_canonical_roundtrip (s : Sysex) (p : Patch) (h : CanonicalSysex s) :
    (dx7_sysex_to_patch s p).1 = true ∧
    ∃ s2, dx7_patch_to_sysex (dx7_sysex_to_patch s p).2 s.sub_status = some s2 ∧
      s2.start_sysex = s.start_sysex ∧ s2.manufacturer = s.manufacturer ∧
      s2.sub_status = s.sub_status ∧ s2.format = s.format ∧
      s2.byte_count_msb = s.byte_count_msb ∧ s2.byte_count_lsb = s.byte_count_lsb ∧
      s2.end_sysex = s.end_sysex ∧
      (∀ i < 155, s2.voice_data i = s.voice_data i) ∧
      s2.checksum = s.checksum := by
  have hbytes : ∀ i < 155, encodeVoiceData (decodedPatch s) i = s.voice_data i :=
    fun i hi => reencode_byte s h i hi
  obtain ⟨hst, hman, hsub, hfmt, hmsb, hlsb, hend, hchk, hlt, hblocks,
    h134, h135, h140, h141, hname, h152, h153, h154⟩ := h
  have hdec : dx7_sysex_to_patch s p = (true, decodedPatch s) := by
    unfold dx7_sysex_to_patch
    rw [if_neg (by simp [hst, hman, hfmt, hmsb, hlsb, hend]), if_neg (by simp [hchk])]
  rw [hdec]
  refine ⟨rfl, encodedSysex (decodedPatch s) s.sub_status,
    dx7_patch_to_sysex_eq _ _ hsub, ?_, ?_, rfl, ?_, ?_, ?_, ?_, hbytes, ?_⟩
  · exact hst.symm
  · exact hman.symm
  · exact hfmt.symm
  · exact hmsb.symm
  · exact hlsb.symm
  · exact hend.symm
  · show calculate_dx7_checksum (encodeVoiceData (decodedPatch s)) 155 = s.checksum
    rw [checksum_congr _ s.voice_data 155 hbytes]
    exact hchk.symm

/-- Witness for C5 (amended): `canonSysex` is canonical and its decode
succeeds. -/
theorem C5_witness :
    CanonicalSysex canonSysex ∧ (dx7_sysex_to_patch canonSysex zeroPatch).1 = true :=
  ⟨canonSysex_canonical,
    (C5_amended_canonical_roundtrip canonSysex zeroPatch canonSysex_canonical).1⟩

end Dx7
